import Mathlib

/-!
Verification development for the abipy repository (scientific post-processing
toolkit for electronic-structure calculations).

The definitions below are a shallow embedding of the Python sources:

* `abipy/core/fields.py`      (`ScalarField`, `Density`, `DensityReader`)
* `abipy/electrons/lobster.py` (`Coxp`, `ICoxp`)
* `abipy/integration_tests/test_optic.py` and the flow/task layer

Numpy arrays are embedded as dimension records together with total index
functions; machine floats are embedded as rationals (the claims under study
are about index/layout/convention algebra, not rounding); Python exceptions
become `Except` error values.

Support modules of the repository that are imported by the sources above but
whose code is not part of this snapshot (`abipy.core.mesh3d.Mesh3D`,
`abipy.tools.transpose_last3dims`, the flow/task scheduler) are modelled from
the specification and from the docstrings quoted in the sources; each such
definition carries a doc comment that says so.
-/

namespace Abipy

/-- A 4-dimensional numpy array of rationals: a component (spin) axis of
length `ns` followed by three grid axes of lengths `n1, n2, n3`.
The index function is total; only indices below the dims are meaningful. -/
structure Arr4 where
  ns : ℕ
  n1 : ℕ
  n2 : ℕ
  n3 : ℕ
  get : ℕ → ℕ → ℕ → ℕ → ℚ

/-- A 3-dimensional numpy array of rationals on the grid axes. -/
structure Arr3 where
  n1 : ℕ
  n2 : ℕ
  n3 : ℕ
  get : ℕ → ℕ → ℕ → ℚ

/-- Pointwise scalar multiplication of a 4-d array (numpy broadcasting). -/
def Arr4.smul (c : ℚ) (a : Arr4) : Arr4 :=
  { a with get := fun s x y z => c * a.get s x y z }

/-- Two 4-d arrays are equal as numpy arrays when their shapes agree and the
entries agree at every in-range index. -/
def Arr4.EqOn (a b : Arr4) : Prop :=
  a.ns = b.ns ∧ a.n1 = b.n1 ∧ a.n2 = b.n2 ∧ a.n3 = b.n3 ∧
    ∀ s x y z, s < a.ns → x < a.n1 → y < a.n2 → z < a.n3 →
      a.get s x y z = b.get s x y z

/-- Modelled from the spec: `abipy.tools.transpose_last3dims` is not part of
this snapshot; the call site in `ScalarField.__init__` documents it as the
transposition of the last three dimensions `(z,x,y) --> (x,y,z)`, i.e. for an
input whose grid axes are `(z, x, y)` the output is indexed by `(x, y, z)`
with `out[.., x, y, z] = in[.., z, x, y]`. -/
def transpose_last3dims (a : Arr4) : Arr4 :=
  { ns := a.ns, n1 := a.n2, n2 := a.n3, n3 := a.n1,
    get := fun s x y z => a.get s z x y }

/-- A crystalline structure, reduced to the single attribute the claims need:
the unit-cell volume (pymatgen guarantees a positive lattice volume). -/
structure CrystalStructure where
  volume : ℚ
  volume_pos : 0 < volume

/-- Modelled from the spec: `abipy.core.mesh3d.Mesh3D` is not part of this
snapshot.  It is a homogeneous real-space FFT mesh over the unit cell: a
shape `(nx, ny, nz)` together with the cell volume; `dv` is the volume
element attached to one grid point. -/
structure Mesh3D where
  nx : ℕ
  ny : ℕ
  nz : ℕ
  vol : ℚ

/-- Volume element of one mesh point: cell volume divided by the number of
grid points. -/
def Mesh3D.dv (m : Mesh3D) : ℚ := m.vol / (m.nx * m.ny * m.nz)

/-- Modelled from the spec: `Mesh3D.integrate` of a scalar field on the mesh
("integrated over the unit cell", docstring of `Density.magnetization`):
the sum of the values on the grid points times the volume element `dv`. -/
def Mesh3D.integrate3 (m : Mesh3D) (g : ℕ → ℕ → ℕ → ℚ) : ℚ :=
  (∑ x ∈ Finset.range m.nx, ∑ y ∈ Finset.range m.ny,
    ∑ z ∈ Finset.range m.nz, g x y z) * m.dv

/-- `Mesh3D.zeros()`: the all-zero scalar field on the mesh. -/
def Mesh3D.zeros (m : Mesh3D) : Arr3 :=
  { n1 := m.nx, n2 := m.ny, n3 := m.nz, get := fun _ _ _ => 0 }

/-- Errors raised by the `ScalarField`/`Density` constructors and methods. -/
inductive FieldErr where
  | assertionError
  | reshapeError
  | notImplementedError
  | valueError
  | indexError
  deriving DecidableEq, Repr

/-- Embedding of `ScalarField` (fields.py).  `Density` is the subclass whose
`__init__` merely delegates to `ScalarField.__init__`, so the same record is
used for both. -/
structure ScalarField where
  nspinor : ℕ
  nsppol : ℕ
  nspden : ℕ
  structure_ : CrystalStructure
  mesh : Mesh3D
  datar : Arr4

/-- `Density` is `ScalarField` with extra methods (fields.py line 346). -/
abbrev Density := ScalarField

/-- Embedding of Python's `str.lower()` on ASCII strings: lower-case every
character. -/
def pyLower (s : String) : String := String.mk (s.data.map Char.toLower)

/-- `ScalarField.__init__` (fields.py lines 36-62): lower-cases `iorder` and
asserts it is `"f"` or `"c"`; with `"f"` the last three dimensions of `datar`
are transposed `(z,x,y) --> (x,y,z)`; the mesh shape is `datar.shape[-3:]`;
finally `datar` is reshaped to `(nspden,) + mesh.shape` (a numpy reshape,
which fails unless the component axis already has length `nspden`). -/
def ScalarField.init (nspinor nsppol nspden : ℕ) (datar : Arr4)
    (struct : CrystalStructure) (iorder : String) : Except FieldErr ScalarField :=
  let io := pyLower iorder
  if io = "f" ∨ io = "c" then
    let d := if io = "f" then transpose_last3dims datar else datar
    let mesh : Mesh3D := { nx := d.n1, ny := d.n2, nz := d.n3, vol := struct.volume }
    if d.ns = nspden then
      Except.ok { nspinor := nspinor, nsppol := nsppol, nspden := nspden,
                  structure_ := struct, mesh := mesh, datar := d }
    else
      Except.error .reshapeError
  else
    Except.error .assertionError

/-- `ScalarField.is_collinear` (fields.py line 154): `nspinor == 1`. -/
def ScalarField.is_collinear (f : ScalarField) : Prop := f.nspinor = 1

instance (f : ScalarField) : Decidable f.is_collinear := by
  unfold ScalarField.is_collinear; infer_instance

/-- `Density.total_rhor` (fields.py lines 495-511): the total density in real
space; `NotImplementedError` for `nsppol == 1, nspden == 2` and for the
non-collinear case, `ValueError` for any other `nsppol`. -/
def Density.total_rhor (d : Density) : Except FieldErr Arr3 :=
  if d.nspinor = 1 then
    if d.nsppol = 1 then
      if d.nspden = 2 then Except.error .notImplementedError
      else Except.ok { n1 := d.datar.n1, n2 := d.datar.n2, n3 := d.datar.n3,
                       get := d.datar.get 0 }
    else if d.nsppol = 2 then
      Except.ok { n1 := d.datar.n1, n2 := d.datar.n2, n3 := d.datar.n3,
                  get := fun x y z => d.datar.get 0 x y z + d.datar.get 1 x y z }
    else Except.error .valueError
  else Except.error .notImplementedError

/-- The magnetization field is a 3-d array in the collinear case and a 4-d
array (components `mx, my, mz`) in the non-collinear case. -/
inductive MagData where
  | coll (g : Arr3)
  | noncoll (a : Arr4)

/-- The integrated magnetization: scalar if collinear, vector otherwise. -/
inductive MagVal where
  | scalar (x : ℚ)
  | vec (n : ℕ) (v : ℕ → ℚ)

/-- `Density.magnetization_field` (fields.py lines 524-542): `mesh.zeros()`
for `nsppol == 1 and nspden == 1`, `datar[0] - datar[1]` in every other
collinear case, and `datar[1:]` in the non-collinear case. -/
def Density.magnetization_field (d : Density) : MagData :=
  if d.nspinor = 1 then
    if d.nsppol = 1 ∧ d.nspden = 1 then .coll d.mesh.zeros
    else .coll { n1 := d.datar.n1, n2 := d.datar.n2, n3 := d.datar.n3,
                 get := fun x y z => d.datar.get 0 x y z - d.datar.get 1 x y z }
  else .noncoll { ns := d.datar.ns - 1, n1 := d.datar.n1, n2 := d.datar.n2,
                  n3 := d.datar.n3, get := fun s x y z => d.datar.get (s + 1) x y z }

/-- `Density.magnetization` (fields.py lines 544-550): the magnetization
field integrated over the unit cell by `mesh.integrate`. -/
def Density.magnetization (d : Density) : MagVal :=
  match d.magnetization_field with
  | .coll g => .scalar (d.mesh.integrate3 g.get)
  | .noncoll a => .vec a.ns (fun s => d.mesh.integrate3 (a.get s))

/-- `Density.zeta` (fields.py lines 570-576):
`fact = np.where(total_rhor > 1e-16, 1/total_rhor, 0.0)` followed by
`self.magnetization * fact`.  Note that the code multiplies by
`self.magnetization` (the integrated scalar), not by the pointwise
magnetization field.  Errors raised while evaluating `total_rhor`
propagate; the vector branch is unreachable because non-collinear
`total_rhor` raises first. -/
def Density.zeta (d : Density) : Except FieldErr Arr3 :=
  match d.total_rhor with
  | .error e => .error e
  | .ok t =>
    match d.magnetization with
    | .scalar m =>
      .ok { n1 := t.n1, n2 := t.n2, n3 := t.n3,
            get := fun x y z =>
              m * (if (1 : ℚ) / 10 ^ 16 < t.get x y z then 1 / t.get x y z else 0) }
    | .vec _ _ => .error .valueError

/-- External constant `pymatgen.core.units.bohr_to_angstrom` (CODATA Bohr
radius in Angstrom). -/
def bohr_to_angstrom : ℚ := 0.52917721067

/-- Elementwise division of a 4-d array by a scalar (`arr /= c`). -/
def Arr4.divs (a : Arr4) (c : ℚ) : Arr4 :=
  { a with get := fun s x y z => a.get s x y z / c }

/-- The dimensions and payload read from a netCDF density file
(`DensityReader.read_den_dims`, `read_structure`, `read_value("density")` in
fields.py lines 734-758).  `rhor` is the density array as read: the
component (`nspden`) axis first, then the three grid axes in the order they
sit in the file (grid data in Fortran order, so the `"f"` transpose in
`ScalarField.__init__` maps the stored entry at `(x, y, z)` to the raw entry
at `(z, x, y)`). -/
structure DenFileData where
  cplex_den : ℕ
  nspinor : ℕ
  nsppol : ℕ
  nspden : ℕ
  nfft1 : ℕ
  nfft2 : ℕ
  nfft3 : ℕ
  struct : CrystalStructure
  rhor : Arr4

/-- `DensityReader.read_density` (fields.py lines 746-781): for
`nspden == 2` the spin convention is changed from Abinit's
`(total, spin_up)` to `(spin_up, spin_down)` in place
(`total = rhor[0].copy(); rhor[0] = rhor[1]; rhor[1] = total - rhor[1]`);
for `cplex_den == 1` the array is reshaped to
`(nspden, nfft1, nfft2, nfft3)` (modelled as a shape check on the already
4-d array), divided by `bohr_to_angstrom ** 3`, and handed to the
constructor with `iorder="f"`. -/
def DensityReader.read_density (f : DenFileData) : Except FieldErr Density :=
  (if f.nspden = 1 ∨ f.nspden = 4 then Except.ok f.rhor
   else if f.nspden = 2 then
     Except.ok { f.rhor with get := fun s x y z =>
       (if s = 0 then f.rhor.get 1 x y z
        else if s = 1 then f.rhor.get 0 x y z - f.rhor.get 1 x y z
        else f.rhor.get s x y z) }
   else Except.error .valueError) >>= fun rhor =>
  if f.cplex_den = 1 then
    if rhor.ns = f.nspden ∧ rhor.n1 = f.nfft1 ∧ rhor.n2 = f.nfft2 ∧
        rhor.n3 = f.nfft3 then
      ScalarField.init f.nspinor f.nsppol f.nspden
        (rhor.divs (bohr_to_angstrom ^ 3)) f.struct "f"
    else Except.error .reshapeError
  else Except.error .notImplementedError

/-- Embedding of the pymatgen `Chgcar` object as produced by
`Density.to_chgcar`: the grid dimensions, the `"total"` data set and the
optional `"diff"` data set. -/
structure Chgcar where
  nx : ℕ
  ny : ℕ
  nz : ℕ
  total : ℕ → ℕ → ℕ → ℚ
  diff : Option (ℕ → ℕ → ℕ → ℚ)

/-- Modelled from pymatgen (external dependency): `Chgcar.is_spin_polarized`
is true when the file holds two data sets (`total` and `diff`). -/
def Chgcar.is_spin_polarized (c : Chgcar) : Bool := c.diff.isSome

/-- `Density.to_chgcar` (fields.py lines 646-681):
`myrhor = self.datar * self.structure.volume`; for `nspinor == 1` and
`nsppol == 1` the data dict is `{"total": myrhor[0]}`, for `nsppol == 2` it
is `{"total": myrhor[0] + myrhor[1], "diff": myrhor[0] - myrhor[1]}`;
`nspinor == 2` raises `NotImplementedError`; any other `nspinor` or
`nsppol` leaves `data_dict` unbound (a `NameError`, modelled as
`valueError`); indexing a missing component is a numpy `IndexError`. -/
def Density.to_chgcar (d : Density) : Except FieldErr Chgcar :=
  let v := d.structure_.volume
  if d.nspinor = 1 then
    if d.nsppol = 1 then
      if 1 ≤ d.datar.ns then
        Except.ok { nx := d.datar.n1, ny := d.datar.n2, nz := d.datar.n3,
                    total := fun x y z => d.datar.get 0 x y z * v,
                    diff := none }
      else Except.error .indexError
    else if d.nsppol = 2 then
      if 2 ≤ d.datar.ns then
        Except.ok { nx := d.datar.n1, ny := d.datar.n2, nz := d.datar.n3,
                    total := fun x y z =>
                      d.datar.get 0 x y z * v + d.datar.get 1 x y z * v,
                    diff := some fun x y z =>
                      d.datar.get 0 x y z * v - d.datar.get 1 x y z * v }
      else Except.error .indexError
    else Except.error .valueError
  else if d.nspinor = 2 then Except.error .notImplementedError
  else Except.error .valueError

/-- `Density.from_chgcar_poscar` (fields.py lines 683-728): `nsppol` is 2
when the Chgcar is spin polarized and 1 otherwise, `nspden = nsppol`; for
`nsppol == 2` the components are `(total + diff) / 2` and
`(total - diff) / 2`; the data is divided by `poscar.structure.volume` and
passed to the constructor with `iorder="c"`. -/
def Density.from_chgcar_poscar (c : Chgcar) (poscar : CrystalStructure) :
    Except FieldErr Density :=
  match c.diff with
  | none =>
    ScalarField.init 1 1 1
      { ns := 1, n1 := c.nx, n2 := c.ny, n3 := c.nz,
        get := fun s x y z =>
          (if s = 0 then c.total x y z else 0) / poscar.volume }
      poscar "c"
  | some diff =>
    ScalarField.init 1 2 2
      { ns := 2, n1 := c.nx, n2 := c.ny, n3 := c.nz,
        get := fun s x y z =>
          (if s = 0 then (c.total x y z + diff x y z) / 2
           else if s = 1 then (c.total x y z - diff x y z) / 2
           else 0) / poscar.volume }
      poscar "c"

/-- `np.sum` over all the entries of a 4-d array. -/
def Arr4.sum (a : Arr4) : ℚ :=
  ∑ s ∈ Finset.range a.ns, ∑ x ∈ Finset.range a.n1,
    ∑ y ∈ Finset.range a.n2, ∑ z ∈ Finset.range a.n3, a.get s x y z

/-- The `core_den` array of `ae_core_density_on_mesh`:
`np.zeros_like(valence_density.datar)` with only component 0 written. -/
def aeCoreDen (valence : Density) (core : ℕ → ℕ → ℕ → ℚ) : Arr4 :=
  { ns := valence.datar.ns, n1 := valence.datar.n1, n2 := valence.datar.n2,
    n3 := valence.datar.n3,
    get := fun s x y z => if s = 0 then core x y z else 0 }

/-- The common tail of `ae_core_density_on_mesh` after the per-method
accumulation of `core_den`: the optional `nelec` consistency check and
rescaling, and the final construction with `nspinor=nsppol=nspden=1`. -/
def aeTail (valence : Density) (struct : CrystalStructure)
    (core : ℕ → ℕ → ℕ → ℚ) (nelec : Option ℚ) : Except FieldErr Density :=
  let core_den := aeCoreDen valence core
  match nelec with
  | none => ScalarField.init 1 1 1 core_den struct "c"
  | some ne =>
    let sum_elec := core_den.sum * valence.mesh.dv
    if 1 / 100 < |sum_elec - ne| / ne then Except.error .valueError
    else ScalarField.init 1 1 1
      { core_den with get := fun s x y z => core_den.get s x y z / sum_elec * ne }
      struct "c"

/-- `Density.ae_core_density_on_mesh` (fields.py lines 361-469).
Modelled from the spec: the spatial queries
(`structure.get_sites_in_sphere`, `mesh.dist_gridpoints_in_spheres`,
`mesh.rpoint`) and the radial spline evaluation live in modules that are
not part of this snapshot, so the core density each of the two methods
accumulates on the grid is abstracted into the inputs `coreDenSites`
(method `'get_sites_in_sphere'`) and `coreDenGrid`
(method `'mesh3d_dist_gridpoints'`).  The control flow around them follows
the source: an unknown `method` raises `ValueError`; the `nelec` check and
rescaling and the final construction are in `aeTail`. -/
def Density.ae_core_density_on_mesh (valence : Density)
    (struct : CrystalStructure) (coreDenSites coreDenGrid : ℕ → ℕ → ℕ → ℚ)
    (nelec : Option ℚ) (method : String) : Except FieldErr Density :=
  if method = "get_sites_in_sphere" then aeTail valence struct coreDenSites nelec
  else if method = "mesh3d_dist_gridpoints" then aeTail valence struct coreDenGrid nelec
  else Except.error .valueError

/-! ### Helper lemmas about the `ScalarField` constructor -/

theorem ScalarField.init_f (nspinor nsppol nspden : ℕ) (a : Arr4)
    (st : CrystalStructure) (io : String) (hio : pyLower io = "f")
    (hns : a.ns = nspden) :
    ScalarField.init nspinor nsppol nspden a st io =
      Except.ok { nspinor := nspinor, nsppol := nsppol, nspden := nspden,
                  structure_ := st,
                  mesh := { nx := a.n2, ny := a.n3, nz := a.n1, vol := st.volume },
                  datar := transpose_last3dims a } := by
  simp [ScalarField.init, hio, transpose_last3dims, hns]

theorem ScalarField.init_c (nspinor nsppol nspden : ℕ) (a : Arr4)
    (st : CrystalStructure) (io : String) (hio : pyLower io = "c")
    (hns : a.ns = nspden) :
    ScalarField.init nspinor nsppol nspden a st io =
      Except.ok { nspinor := nspinor, nsppol := nsppol, nspden := nspden,
                  structure_ := st,
                  mesh := { nx := a.n1, ny := a.n2, nz := a.n3, vol := st.volume },
                  datar := a } := by
  simp [ScalarField.init, hio, hns]

theorem ScalarField.init_bad (nspinor nsppol nspden : ℕ) (a : Arr4)
    (st : CrystalStructure) (io : String) (hf : pyLower io ≠ "f")
    (hc : pyLower io ≠ "c") :
    ScalarField.init nspinor nsppol nspden a st io =
      Except.error .assertionError := by
  simp [ScalarField.init, hf, hc]

theorem ScalarField.init_ok_fields (nspinor nsppol nspden : ℕ) (a : Arr4)
    (st : CrystalStructure) (io : String) (f : ScalarField)
    (h : ScalarField.init nspinor nsppol nspden a st io = Except.ok f) :
    f.nspinor = nspinor ∧ f.nsppol = nsppol ∧ f.nspden = nspden := by
  unfold ScalarField.init at h
  dsimp only at h
  repeat' split at h
  all_goals cases h
  all_goals exact ⟨rfl, rfl, rfl⟩

/-! ### Sample objects used by the witnesses -/

/-- A unit-volume crystal structure used by concrete witnesses. -/
def sampleStruct : CrystalStructure := ⟨1, one_pos⟩

/-- A one-component 1x1x1 array used by concrete witnesses. -/
def sampleArr : Arr4 := { ns := 1, n1 := 1, n2 := 1, n3 := 1, get := fun _ _ _ _ => 1 }

/-! ### C2 -/

/-- C2: a `ScalarField` constructed with `iorder="f"` stores the input with
its last three dimensions transposed from `(z,x,y)` to `(x,y,z)` (and
reshaped to `(nspden, nx, ny, nz)`); with `iorder="c"` the input is stored
unchanged up to that reshape; any other `iorder` (case-insensitively) fails
the constructor's assertion. -/
theorem claim_C2_scalarfield_iorder (nspinor nsppol nspden : ℕ) (a : Arr4)
    (st : CrystalStructure) (io : String) (hns : a.ns = nspden) :
    (pyLower io = "f" →
      ∃ f, ScalarField.init nspinor nsppol nspden a st io = Except.ok f ∧
        f.datar.ns = nspden ∧ f.datar.n1 = a.n2 ∧ f.datar.n2 = a.n3 ∧
        f.datar.n3 = a.n1 ∧
        ∀ s x y z, f.datar.get s x y z = a.get s z x y) ∧
    (pyLower io = "c" →
      ∃ f, ScalarField.init nspinor nsppol nspden a st io = Except.ok f ∧
        f.datar.ns = nspden ∧ f.datar = a) ∧
    (pyLower io ≠ "f" → pyLower io ≠ "c" →
      ScalarField.init nspinor nsppol nspden a st io =
        Except.error .assertionError) := by
  refine ⟨fun hio => ?_, fun hio => ?_, fun hf hc => ?_⟩
  · exact ⟨_, ScalarField.init_f nspinor nsppol nspden a st io hio hns,
      hns ▸ rfl, rfl, rfl, rfl, fun s x y z => rfl⟩
  · exact ⟨_, ScalarField.init_c nspinor nsppol nspden a st io hio hns,
      hns, rfl⟩
  · exact ScalarField.init_bad nspinor nsppol nspden a st io hf hc

/-- Witness for C2: the `"F"` branch at a concrete input. -/
theorem claim_C2_witness :
    sampleArr.ns = 1 ∧
    (∃ f, ScalarField.init 1 1 1 sampleArr sampleStruct "F" = Except.ok f ∧
      f.datar.ns = 1 ∧ f.datar.n1 = sampleArr.n2 ∧ f.datar.n2 = sampleArr.n3 ∧
      f.datar.n3 = sampleArr.n1 ∧
      ∀ s x y z, f.datar.get s x y z = sampleArr.get s z x y) :=
  ⟨rfl, (claim_C2_scalarfield_iorder 1 1 1 sampleArr sampleStruct "F" rfl).1
    (by decide)⟩

/-! ### C1 -/

/-- C1: for a netCDF density file with `nspden == 2` and `cplex_den == 1`,
`DensityReader.read_density` stores the `(spin_up, spin_down)` convention:
the first returned component is the file's second component and the second
returned component is the file's first minus its second, both divided by
`bohr_to_angstrom ** 3` (the stored entry at `(x, y, z)` corresponds to the
raw file entry at `(z, x, y)` through the `iorder="f"` transposition). -/
theorem claim_C1_read_density_spin_convention (f : DenFileData)
    (h2 : f.nspden = 2) (hc : f.cplex_den = 1) (hns : f.rhor.ns = 2)
    (hd1 : f.rhor.n1 = f.nfft1) (hd2 : f.rhor.n2 = f.nfft2)
    (hd3 : f.rhor.n3 = f.nfft3) :
    ∃ d, DensityReader.read_density f = Except.ok d ∧
      (∀ x y z, d.datar.get 0 x y z =
        f.rhor.get 1 z x y / bohr_to_angstrom ^ 3) ∧
      (∀ x y z, d.datar.get 1 x y z =
        (f.rhor.get 0 z x y - f.rhor.get 1 z x y) / bohr_to_angstrom ^ 3) := by
  have hstep : DensityReader.read_density f =
      ScalarField.init f.nspinor f.nsppol f.nspden
        (Arr4.divs { f.rhor with get := fun s x y z =>
          (if s = 0 then f.rhor.get 1 x y z
           else if s = 1 then f.rhor.get 0 x y z - f.rhor.get 1 x y z
           else f.rhor.get s x y z) } (bohr_to_angstrom ^ 3)) f.struct "f" := by
    unfold DensityReader.read_density
    simp [h2, hc, hns, hd1, hd2, hd3, Bind.bind, Except.bind]
  rw [hstep, ScalarField.init_f _ _ _ _ _ _ (by decide) (by simp [Arr4.divs, hns, h2])]
  refine ⟨_, rfl, fun x y z => ?_, fun x y z => ?_⟩
  · simp [transpose_last3dims, Arr4.divs]
  · simp [transpose_last3dims, Arr4.divs]

/-- A two-component 1x1x1 raw density file (total, spin-up) = (4, 3). -/
def sampleDenFile : DenFileData :=
  { cplex_den := 1, nspinor := 1, nsppol := 2, nspden := 2,
    nfft1 := 1, nfft2 := 1, nfft3 := 1, struct := sampleStruct,
    rhor := { ns := 2, n1 := 1, n2 := 1, n3 := 1,
              get := fun s _ _ _ => if s = 0 then 4 else 3 } }

/-- Witness for C1 at a concrete density file. -/
theorem claim_C1_witness :
    (sampleDenFile.nspden = 2 ∧ sampleDenFile.cplex_den = 1 ∧
      sampleDenFile.rhor.ns = 2 ∧ sampleDenFile.rhor.n1 = sampleDenFile.nfft1 ∧
      sampleDenFile.rhor.n2 = sampleDenFile.nfft2 ∧
      sampleDenFile.rhor.n3 = sampleDenFile.nfft3) ∧
    ∃ d, DensityReader.read_density sampleDenFile = Except.ok d ∧
      (∀ x y z, d.datar.get 0 x y z =
        sampleDenFile.rhor.get 1 z x y / bohr_to_angstrom ^ 3) ∧
      (∀ x y z, d.datar.get 1 x y z =
        (sampleDenFile.rhor.get 0 z x y - sampleDenFile.rhor.get 1 z x y) /
          bohr_to_angstrom ^ 3) :=
  ⟨⟨rfl, rfl, rfl, rfl, rfl, rfl⟩,
    claim_C1_read_density_spin_convention sampleDenFile rfl rfl rfl rfl rfl rfl⟩

/-! ### C3 -/

/-- C3: the magnetization field is the all-zero array on the mesh when
`nsppol == 1` and `nspden == 1`, is `datar[0] - datar[1]` in every other
collinear case, and is `datar[1:]` in the non-collinear case; the
magnetization is that field integrated over the unit cell by
`mesh.integrate`. -/
theorem claim_C3_magnetization (d : Density) :
    (d.nspinor = 1 ∧ d.nsppol = 1 ∧ d.nspden = 1 →
      ∃ g, d.magnetization_field = .coll g ∧
        g.n1 = d.mesh.nx ∧ g.n2 = d.mesh.ny ∧ g.n3 = d.mesh.nz ∧
        (∀ x y z, g.get x y z = 0) ∧
        d.magnetization = .scalar (d.mesh.integrate3 g.get)) ∧
    (d.nspinor = 1 → ¬(d.nsppol = 1 ∧ d.nspden = 1) →
      ∃ g, d.magnetization_field = .coll g ∧
        (∀ x y z, g.get x y z = d.datar.get 0 x y z - d.datar.get 1 x y z) ∧
        d.magnetization = .scalar (d.mesh.integrate3 g.get)) ∧
    (d.nspinor ≠ 1 →
      ∃ a, d.magnetization_field = .noncoll a ∧ a.ns = d.datar.ns - 1 ∧
        (∀ s x y z, a.get s x y z = d.datar.get (s + 1) x y z) ∧
        d.magnetization = .vec a.ns fun s => d.mesh.integrate3 (a.get s)) := by
  refine ⟨fun ⟨h1, h2, h3⟩ => ?_, fun h1 hn => ?_, fun h1 => ?_⟩
  · have hf : d.magnetization_field = .coll d.mesh.zeros := by
      simp [Density.magnetization_field, h1, h2, h3]
    exact ⟨d.mesh.zeros, hf, rfl, rfl, rfl, fun _ _ _ => rfl,
      by unfold Density.magnetization; rw [hf]⟩
  · have hf : d.magnetization_field = .coll
        { n1 := d.datar.n1, n2 := d.datar.n2, n3 := d.datar.n3,
          get := fun x y z => d.datar.get 0 x y z - d.datar.get 1 x y z } := by
      simp [Density.magnetization_field, h1, hn]
    exact ⟨_, hf, fun _ _ _ => rfl, by unfold Density.magnetization; rw [hf]⟩
  · have hf : d.magnetization_field = .noncoll
        { ns := d.datar.ns - 1, n1 := d.datar.n1, n2 := d.datar.n2,
          n3 := d.datar.n3, get := fun s x y z => d.datar.get (s + 1) x y z } := by
      simp [Density.magnetization_field, h1]
    exact ⟨_, hf, rfl, fun _ _ _ _ => rfl,
      by unfold Density.magnetization; rw [hf]⟩

/-- A two-component 1x1x1 density array: spin-up 3, spin-down 1. -/
def spinArr : Arr4 :=
  { ns := 2, n1 := 1, n2 := 1, n3 := 1,
    get := fun s _ _ _ => if s = 0 then 3 else 1 }

/-- A four-component 1x1x1 density array (non-collinear layout). -/
def ncolArr : Arr4 :=
  { ns := 4, n1 := 1, n2 := 1, n3 := 1, get := fun s _ _ _ => (s : ℚ) }

/-- Unpolarized sample density. -/
def magD1 : Density :=
  { nspinor := 1, nsppol := 1, nspden := 1, structure_ := sampleStruct,
    mesh := { nx := 1, ny := 1, nz := 1, vol := 1 }, datar := sampleArr }

/-- Collinear spin-polarized sample density. -/
def magD2 : Density :=
  { nspinor := 1, nsppol := 2, nspden := 2, structure_ := sampleStruct,
    mesh := { nx := 1, ny := 1, nz := 1, vol := 1 }, datar := spinArr }

/-- Non-collinear sample density. -/
def magD3 : Density :=
  { nspinor := 2, nsppol := 1, nspden := 4, structure_ := sampleStruct,
    mesh := { nx := 1, ny := 1, nz := 1, vol := 1 }, datar := ncolArr }

/-- Witness for C3: all three branches at concrete densities. -/
theorem claim_C3_witness :
    ((magD1.nspinor = 1 ∧ magD1.nsppol = 1 ∧ magD1.nspden = 1) ∧
      ∃ g, magD1.magnetization_field = .coll g ∧
        g.n1 = magD1.mesh.nx ∧ g.n2 = magD1.mesh.ny ∧ g.n3 = magD1.mesh.nz ∧
        (∀ x y z, g.get x y z = 0) ∧
        magD1.magnetization = .scalar (magD1.mesh.integrate3 g.get)) ∧
    ((magD2.nspinor = 1 ∧ ¬(magD2.nsppol = 1 ∧ magD2.nspden = 1)) ∧
      ∃ g, magD2.magnetization_field = .coll g ∧
        (∀ x y z, g.get x y z = magD2.datar.get 0 x y z - magD2.datar.get 1 x y z) ∧
        magD2.magnetization = .scalar (magD2.mesh.integrate3 g.get)) ∧
    ((magD3.nspinor ≠ 1) ∧
      ∃ a, magD3.magnetization_field = .noncoll a ∧ a.ns = magD3.datar.ns - 1 ∧
        (∀ s x y z, a.get s x y z = magD3.datar.get (s + 1) x y z) ∧
        magD3.magnetization = .vec a.ns fun s => magD3.mesh.integrate3 (a.get s)) :=
  ⟨⟨⟨rfl, rfl, rfl⟩, (claim_C3_magnetization magD1).1 ⟨rfl, rfl, rfl⟩⟩,
   ⟨⟨rfl, by decide⟩, (claim_C3_magnetization magD2).2.1 rfl (by decide)⟩,
   ⟨by decide, (claim_C3_magnetization magD3).2.2 (by decide)⟩⟩

/-! ### C4 -/

/-- Projection: the value of an `Except`-wrapped 3-d array at a point. -/
def okArr3At (e : Except FieldErr Arr3) (x y z : ℕ) : Option ℚ :=
  match e with
  | .ok g => some (g.get x y z)
  | .error _ => none

/-- Projection: the value of a collinear magnetization field at a point. -/
def collAt (m : MagData) (x y z : ℕ) : Option ℚ :=
  match m with
  | .coll g => some (g.get x y z)
  | .noncoll _ => none

/-- Collinear spin-polarized density on a 1x1x1 mesh of a cell of volume 2:
spin-up 3, spin-down 1 at the single grid point, so the total density is 4,
the magnetization field is 2 and the integrated magnetization is
`2 * dv = 4`. -/
def zetaD : Density :=
  { nspinor := 1, nsppol := 2, nspden := 2, structure_ := ⟨2, by norm_num⟩,
    mesh := { nx := 1, ny := 1, nz := 1, vol := 2 }, datar := spinArr }

/-- C4 (code bug): `Density.zeta` multiplies `self.magnetization` — the
magnetization integrated over the cell, a scalar — by
`np.where(total_rhor > 1e-16, 1/total_rhor, 0)`, instead of using the
pointwise magnetization field as its own docstring
("Magnetization(r) / total_density(r)") and the claim state.  At the input
`zetaD` the code yields `4 * (1/4) = 1` while the pointwise ratio is
`2 / 4 = 1/2`. -/
theorem claim_C4_zeta_code_bug :
    okArr3At (Density.zeta zetaD) 0 0 0 = some 1 ∧
    collAt zetaD.magnetization_field 0 0 0 = some 2 ∧
    okArr3At zetaD.total_rhor 0 0 0 = some 4 ∧
    (2 : ℚ) / 4 ≠ 1 := by
  refine ⟨?_, ?_, ?_, by norm_num⟩
  · simp only [okArr3At, Density.zeta, Density.total_rhor, Density.magnetization,
      Density.magnetization_field, Mesh3D.integrate3, Mesh3D.dv, Mesh3D.zeros,
      zetaD, spinArr]
    norm_num
  · simp only [collAt, Density.magnetization_field, zetaD, spinArr]
    norm_num
  · simp only [okArr3At, Density.total_rhor, zetaD, spinArr]
    norm_num

/-! ### C5 -/

theorem ScalarField.init_ok_inv (nspinor nsppol nspden : ℕ) (a : Arr4)
    (st : CrystalStructure) (io : String) (f : ScalarField)
    (h : ScalarField.init nspinor nsppol nspden a st io = Except.ok f) :
    f.datar = (if pyLower io = "f" then transpose_last3dims a else a) ∧
    f.datar.ns = nspden := by
  unfold ScalarField.init at h
  dsimp only at h
  repeat' split at h
  all_goals cases h
  all_goals simp_all

theorem aeTail_ok_fields (v : Density) (st : CrystalStructure)
    (core : ℕ → ℕ → ℕ → ℚ) (nel : Option ℚ) (d : Density)
    (h : aeTail v st core nel = Except.ok d) :
    d.nspinor = 1 ∧ d.nsppol = 1 ∧ d.nspden = 1 := by
  unfold aeTail at h
  rcases nel with _ | ne
  · exact ScalarField.init_ok_fields _ _ _ _ _ _ _ h
  · dsimp only at h
    split at h
    · cases h
    · exact ScalarField.init_ok_fields _ _ _ _ _ _ _ h

/-- C5: `ae_core_density_on_mesh` raises `ValueError` for any method other
than `'get_sites_in_sphere'` / `'mesh3d_dist_gridpoints'`; with `nelec`
given it raises `ValueError` when the summed core density times the volume
element differs from `nelec` by more than 1% of `nelec` and otherwise
rescales the core density so that its integral over the mesh equals
`nelec`; the returned `Density` always has `nspinor = nsppol = nspden = 1`. -/
theorem claim_C5_ae_core_density (valence : Density) (st : CrystalStructure)
    (cs cg : ℕ → ℕ → ℕ → ℚ) (ne : ℚ) (method : String)
    (hm1 : valence.mesh.nx = valence.datar.n1)
    (hm2 : valence.mesh.ny = valence.datar.n2)
    (hm3 : valence.mesh.nz = valence.datar.n3)
    (hne : 0 < ne) :
    (method ≠ "get_sites_in_sphere" → method ≠ "mesh3d_dist_gridpoints" →
      ∀ nel, Density.ae_core_density_on_mesh valence st cs cg nel method =
        Except.error .valueError) ∧
    (∀ nel d, Density.ae_core_density_on_mesh valence st cs cg nel method =
        Except.ok d → d.nspinor = 1 ∧ d.nsppol = 1 ∧ d.nspden = 1) ∧
    (method = "mesh3d_dist_gridpoints" →
      (ne / 100 < |(aeCoreDen valence cg).sum * valence.mesh.dv - ne| →
        Density.ae_core_density_on_mesh valence st cs cg (some ne) method =
          Except.error .valueError) ∧
      (|(aeCoreDen valence cg).sum * valence.mesh.dv - ne| ≤ ne / 100 →
        ∀ d, Density.ae_core_density_on_mesh valence st cs cg (some ne) method =
          Except.ok d →
          valence.mesh.integrate3 (fun x y z => d.datar.get 0 x y z) = ne)) := by
  refine ⟨fun hf hc nel => ?_, fun nel d h => ?_, fun hmeth => ⟨fun hgt => ?_, fun hle d h => ?_⟩⟩
  · unfold Density.ae_core_density_on_mesh
    rw [if_neg hf, if_neg hc]
  · unfold Density.ae_core_density_on_mesh at h
    split at h
    · exact aeTail_ok_fields _ _ _ _ _ h
    · split at h
      · exact aeTail_ok_fields _ _ _ _ _ h
      · cases h
  · subst hmeth
    have hcond : (1 : ℚ) / 100 <
        |(aeCoreDen valence cg).sum * valence.mesh.dv - ne| / ne := by
      rw [lt_div_iff₀ hne]
      nlinarith [hgt]
    unfold Density.ae_core_density_on_mesh
    rw [if_neg (by decide), if_pos rfl]
    unfold aeTail
    dsimp only
    rw [if_pos hcond]
  · subst hmeth
    set S := (aeCoreDen valence cg).sum * valence.mesh.dv with hS
    have hSpos : 0 < S := by
      rcases abs_le.mp hle with ⟨h1, h2⟩
      linarith
    have hcond : ¬ ((1 : ℚ) / 100 < |S - ne| / ne) := by
      rw [not_lt, div_le_iff₀ hne]
      nlinarith [hle]
    unfold Density.ae_core_density_on_mesh at h
    rw [if_neg (by decide), if_pos rfl] at h
    unfold aeTail at h
    dsimp only at h
    rw [← hS, if_neg hcond] at h
    obtain ⟨hdat, hns⟩ := ScalarField.init_ok_inv _ _ _ _ _ _ _ h
    rw [if_neg (by decide)] at hdat
    have hvns : valence.datar.ns = 1 := by
      rw [hdat] at hns
      exact hns
    have hget : ∀ x y z : ℕ, d.datar.get 0 x y z = cg x y z * (ne / S) := by
      intro x y z
      rw [hdat]
      show (aeCoreDen valence cg).get 0 x y z / S * ne = cg x y z * (ne / S)
      unfold aeCoreDen
      dsimp only
      rw [if_pos rfl]
      ring
    have hsum : (aeCoreDen valence cg).sum =
        ∑ x ∈ Finset.range valence.datar.n1, ∑ y ∈ Finset.range valence.datar.n2,
          ∑ z ∈ Finset.range valence.datar.n3, cg x y z := by
      unfold Arr4.sum aeCoreDen
      dsimp only
      rw [hvns, Finset.sum_range_one]
      simp
    unfold Mesh3D.integrate3
    simp only [hget]
    simp only [← Finset.sum_mul]
    rw [hm1, hm2, hm3, ← hsum]
    have hSne : S ≠ 0 := ne_of_gt hSpos
    rw [hS] at hSne
    obtain ⟨hT, hdv⟩ := mul_ne_zero_iff.mp hSne
    rw [hS]
    field_simp
    ring

/-- Constant core-density input used by the C5 witness. -/
def constCore : ℕ → ℕ → ℕ → ℚ := fun _ _ _ => 2

/-- Witness for C5 at a concrete valence density, `nelec = 2` and the
`'mesh3d_dist_gridpoints'` method. -/
theorem claim_C5_witness :
    (magD1.mesh.nx = magD1.datar.n1 ∧ magD1.mesh.ny = magD1.datar.n2 ∧
      magD1.mesh.nz = magD1.datar.n3 ∧ (0 : ℚ) < 2) ∧
    (((2 : ℚ) / 100 <
        |(aeCoreDen magD1 constCore).sum * magD1.mesh.dv - 2| →
      Density.ae_core_density_on_mesh magD1 sampleStruct constCore constCore
        (some 2) "mesh3d_dist_gridpoints" = Except.error .valueError) ∧
     (|(aeCoreDen magD1 constCore).sum * magD1.mesh.dv - 2| ≤ (2 : ℚ) / 100 →
      ∀ d, Density.ae_core_density_on_mesh magD1 sampleStruct constCore constCore
        (some 2) "mesh3d_dist_gridpoints" = Except.ok d →
        magD1.mesh.integrate3 (fun x y z => d.datar.get 0 x y z) = 2)) :=
  ⟨⟨rfl, rfl, rfl, by norm_num⟩,
   (claim_C5_ae_core_density magD1 sampleStruct constCore constCore 2
     "mesh3d_dist_gridpoints" rfl rfl rfl (by norm_num)).2.2 rfl⟩

/-! ### C10 -/

/-- C10 (amended): for a collinear `Density` with `nspinor == 1` and
`nspden == nsppol ∈ {1, 2}`, converting to VASP form and back
(`from_chgcar_poscar` of `to_chgcar` with the Poscar of the same structure)
is the identity on the real-space data: the volume factors cancel and, for
`nsppol == 2`, `up = (total + diff)/2` and `down = (total - diff)/2` invert
`total = up + down`, `diff = up - down`. -/
theorem claim_C10_chgcar_roundtrip (d : Density) (h1 : d.nspinor = 1)
    (h2 : d.nsppol = 1 ∧ d.nspden = 1 ∨ d.nsppol = 2 ∧ d.nspden = 2)
    (hns : d.datar.ns = d.nspden) :
    ∃ c d', Density.to_chgcar d = Except.ok c ∧
      Density.from_chgcar_poscar c d.structure_ = Except.ok d' ∧
      Arr4.EqOn d'.datar d.datar := by
  have hV : d.structure_.volume ≠ 0 := ne_of_gt d.structure_.volume_pos
  rcases h2 with ⟨hp, hd⟩ | ⟨hp, hd⟩
  · have hc : Density.to_chgcar d = Except.ok
        { nx := d.datar.n1, ny := d.datar.n2, nz := d.datar.n3,
          total := fun x y z => d.datar.get 0 x y z * d.structure_.volume,
          diff := none } := by
      unfold Density.to_chgcar
      rw [h1, hp]
      simp [hns, hd]
    refine ⟨_, _, hc, ScalarField.init_c 1 1 1
      { ns := 1, n1 := d.datar.n1, n2 := d.datar.n2, n3 := d.datar.n3,
        get := fun s x y z =>
          (if s = 0 then d.datar.get 0 x y z * d.structure_.volume else 0) /
            d.structure_.volume }
      d.structure_ "c" (by decide) rfl, ?_⟩
    refine ⟨by rw [hns, hd], rfl, rfl, rfl, fun s x y z hs _ _ _ => ?_⟩
    have hs0 : s = 0 := by
      simpa using hs
    subst hs0
    show (if (0 : ℕ) = 0 then d.datar.get 0 x y z * d.structure_.volume else 0) /
        d.structure_.volume = d.datar.get 0 x y z
    rw [if_pos rfl]
    exact mul_div_cancel_right₀ _ hV
  · have hc : Density.to_chgcar d = Except.ok
        { nx := d.datar.n1, ny := d.datar.n2, nz := d.datar.n3,
          total := fun x y z =>
            d.datar.get 0 x y z * d.structure_.volume +
              d.datar.get 1 x y z * d.structure_.volume,
          diff := some fun x y z =>
            d.datar.get 0 x y z * d.structure_.volume -
              d.datar.get 1 x y z * d.structure_.volume } := by
      unfold Density.to_chgcar
      rw [h1, hp]
      simp [hns, hd]
    refine ⟨_, _, hc, ScalarField.init_c 1 2 2
      { ns := 2, n1 := d.datar.n1, n2 := d.datar.n2, n3 := d.datar.n3,
        get := fun s x y z =>
          (if s = 0 then
            ((d.datar.get 0 x y z * d.structure_.volume +
                d.datar.get 1 x y z * d.structure_.volume) +
              (d.datar.get 0 x y z * d.structure_.volume -
                d.datar.get 1 x y z * d.structure_.volume)) / 2
           else if s = 1 then
            ((d.datar.get 0 x y z * d.structure_.volume +
                d.datar.get 1 x y z * d.structure_.volume) -
              (d.datar.get 0 x y z * d.structure_.volume -
                d.datar.get 1 x y z * d.structure_.volume)) / 2
           else 0) / d.structure_.volume }
      d.structure_ "c" (by decide) rfl, ?_⟩
    refine ⟨by rw [hns, hd], rfl, rfl, rfl, fun s x y z hs _ _ _ => ?_⟩
    interval_cases s
    · show (if (0 : ℕ) = 0 then
          ((d.datar.get 0 x y z * d.structure_.volume +
              d.datar.get 1 x y z * d.structure_.volume) +
            (d.datar.get 0 x y z * d.structure_.volume -
              d.datar.get 1 x y z * d.structure_.volume)) / 2
         else if (0 : ℕ) = 1 then
          ((d.datar.get 0 x y z * d.structure_.volume +
              d.datar.get 1 x y z * d.structure_.volume) -
            (d.datar.get 0 x y z * d.structure_.volume -
              d.datar.get 1 x y z * d.structure_.volume)) / 2
         else 0) / d.structure_.volume = d.datar.get 0 x y z
      rw [if_pos rfl]
      field_simp
    · show (if (1 : ℕ) = 0 then
          ((d.datar.get 0 x y z * d.structure_.volume +
              d.datar.get 1 x y z * d.structure_.volume) +
            (d.datar.get 0 x y z * d.structure_.volume -
              d.datar.get 1 x y z * d.structure_.volume)) / 2
         else if (1 : ℕ) = 1 then
          ((d.datar.get 0 x y z * d.structure_.volume +
              d.datar.get 1 x y z * d.structure_.volume) -
            (d.datar.get 0 x y z * d.structure_.volume -
              d.datar.get 1 x y z * d.structure_.volume)) / 2
         else 0) / d.structure_.volume = d.datar.get 1 x y z
      rw [if_neg (by decide), if_pos rfl]
      field_simp

/-- Witness for C10 at a concrete spin-polarized density. -/
theorem claim_C10_witness :
    (magD2.nspinor = 1 ∧
      (magD2.nsppol = 1 ∧ magD2.nspden = 1 ∨ magD2.nsppol = 2 ∧ magD2.nspden = 2) ∧
      magD2.datar.ns = magD2.nspden) ∧
    ∃ c d', Density.to_chgcar magD2 = Except.ok c ∧
      Density.from_chgcar_poscar c magD2.structure_ = Except.ok d' ∧
      Arr4.EqOn d'.datar magD2.datar :=
  ⟨⟨rfl, Or.inr ⟨rfl, rfl⟩, rfl⟩,
   claim_C10_chgcar_roundtrip magD2 rfl (Or.inr ⟨rfl, rfl⟩) rfl⟩

/-- A collinear density with `nsppol == 1` but `nspden == 2`: the VASP
roundtrip drops the second component, refuting the claim as stated. -/
def badRound : Density :=
  { nspinor := 1, nsppol := 1, nspden := 2, structure_ := sampleStruct,
    mesh := { nx := 1, ny := 1, nz := 1, vol := 1 }, datar := spinArr }

/-- Counterexample to C10 as stated: `badRound` is a collinear `Density`
(`nspinor == 1`, `nsppol ∈ {1, 2}`), yet `from_chgcar_poscar` applied to
`to_chgcar`'s output (with the Poscar of the same structure) does not give
back `datar`: the result is single-component while the input had two. -/
theorem claim_C10_counterexample :
    badRound.nspinor = 1 ∧ badRound.nsppol = 1 ∧
    ¬ (∃ c d', Density.to_chgcar badRound = Except.ok c ∧
        Density.from_chgcar_poscar c badRound.structure_ = Except.ok d' ∧
        Arr4.EqOn d'.datar badRound.datar) := by
  refine ⟨rfl, rfl, fun ⟨c, d', hc, hd', heq⟩ => ?_⟩
  have hc0 : Density.to_chgcar badRound = Except.ok
      { nx := badRound.datar.n1, ny := badRound.datar.n2,
        nz := badRound.datar.n3,
        total := fun x y z =>
          badRound.datar.get 0 x y z * badRound.structure_.volume,
        diff := none } := rfl
  rw [hc0] at hc
  injection hc with hc
  subst hc
  have hd2 : ScalarField.init 1 1 1
      { ns := 1, n1 := badRound.datar.n1, n2 := badRound.datar.n2,
        n3 := badRound.datar.n3,
        get := fun s x y z =>
          (if s = 0 then
            badRound.datar.get 0 x y z * badRound.structure_.volume
           else 0) / badRound.structure_.volume }
      badRound.structure_ "c" = Except.ok d' := hd'
  obtain ⟨_, hns1⟩ := ScalarField.init_ok_inv _ _ _ _ _ _ _ hd2
  have hns2 : d'.datar.ns = 2 := heq.1.trans rfl
  rw [hns1] at hns2
  exact absurd hns2 (by decide)

/-! ### Lobster COOPCAR/COHPCAR parsing (`abipy/electrons/lobster.py`) -/

/-- The groups of a `header_patt` match (lobster.py lines 123-124): three
integers and three floats. -/
structure CoxpHeader where
  n_column_groups : ℕ
  n_spin : ℕ
  n_en_steps : ℕ
  min_en : ℚ
  max_en : ℚ
  fermie : ℚ

/-- The groups of a `pair_patt` match (lobster.py line 125):
`No.k:El_i[orb]->El_j[orb]` with the orbitals optional. -/
structure CoxpPairGroups where
  type1 : String
  idx1 : ℕ
  orb1 : Option String
  type2 : String
  idx2 : ℕ
  orb2 : Option String

/-- A pre-lexed line of a COOPCAR/COHPCAR file: the results of `re.match`
against `header_patt` and `pair_patt` (the regular-expression engine is
Python's `re` and is the modelling boundary: a constructor value records
which pattern matched and with which groups), and the whitespace-separated
numeric tokens `np.fromstring` would read from the line. -/
structure CLine where
  hdr : Option CoxpHeader
  pairm : Option CoxpPairGroups
  nums : List ℚ

/-- A pair line after the 0-based reindexing `index = int(group) - 1`
(lobster.py lines 155-159).  Indices are integers because Python's
`int(...) - 1` may produce `-1`. -/
structure PairData where
  type1 : String
  index1 : ℤ
  orb1 : Option String
  type2 : String
  index2 : ℤ
  orb2 : Option String

/-- Errors raised by `Coxp.from_file`. -/
inductive CoxpErr where
  | noHeader
  | assertFail
  | badShape
  deriving DecidableEq, Repr

/-- The header-search loop (lobster.py lines 131-142): scan the lines for
the first `header_patt` match and return its groups with the remaining
lines; `None` when the file is exhausted (the `for ... else` raises
`ValueError`). -/
def findHeader : List CLine → Option (CoxpHeader × List CLine)
  | [] => none
  | l :: rest =>
    match l.hdr with
    | some h => some (h, rest)
    | none => findHeader rest

/-- The `assert new.type_of_index[index] == type` guard (lobster.py lines
160-163): vacuously true when the index is not yet present. -/
def assertType (tmap : ℤ → Option String) (i : ℤ) (ty : String) : Bool :=
  match tmap i with
  | some t => t == ty
  | none => true

/-- The pair-collection loop (lobster.py lines 150-166): scan lines for
`pair_patt` matches, 0-base the site indices, update `type_of_index` with
the two asserts, count matches and stop once `count_pairs == n_pairs`
(`n_pairs = n_column_groups - 1`, an `int` that may be negative, in which
case the equality never fires and the loop consumes the rest of the file).
Returns the collected pairs, the final `type_of_index` and the unread
lines. -/
def collectPairs (np_ : ℤ) :
    ℕ → (ℤ → Option String) → List CLine →
    Except CoxpErr (List PairData × (ℤ → Option String) × List CLine)
  | _, tmap, [] => .ok ([], tmap, [])
  | count, tmap, l :: rest =>
    match l.pairm with
    | none => collectPairs np_ count tmap rest
    | some g =>
      let i1 : ℤ := (g.idx1 : ℤ) - 1
      let i2 : ℤ := (g.idx2 : ℤ) - 1
      let p : PairData := ⟨g.type1, i1, g.orb1, g.type2, i2, g.orb2⟩
      if assertType tmap i1 g.type1 then
        let tmap1 : ℤ → Option String :=
          fun j => if j = i1 then some g.type1 else tmap j
        if assertType tmap1 i2 g.type2 then
          let tmap2 : ℤ → Option String :=
            fun j => if j = i2 then some g.type2 else tmap1 j
          if ((count : ℤ) + 1) = np_ then .ok ([p], tmap2, rest)
          else
            (collectPairs np_ (count + 1) tmap2 rest).map
              (fun r => (p :: r.1, r.2.1, r.2.2))
        else .error .assertFail
      else .error .assertFail

/-- `f.read()` after the pair loop: the remaining numeric tokens in file
order (`np.fromstring(..., sep=' ')`). -/
def dataTokens (ls : List CLine) : List ℚ := (ls.map CLine.nums).flatten

/-- Column `k` of the `data` matrix of shape `[n_en_steps, ncols]` read
row-major from the flat token list (`data[:, k]`). -/
def col (toks : List ℚ) (ncols nsteps k : ℕ) : List ℚ :=
  (List.range nsteps).map fun r => toks.getD (r * ncols + k) 0

/-- The per-pair `{'single': ..., 'integrated': ...}` leaf dictionaries. -/
structure PairCols where
  single : List ℚ
  integrated : List ℚ
  deriving DecidableEq

/-- `spins = [0, 1][:n_spin]` with Python slice clamping. -/
def spinsOf (n : ℕ) : List ℕ :=
  if n = 0 then [] else if n = 1 then [0] else [0, 1]

/-- The three result dictionaries filled by the spin/pair loops, as maps
with `None` for missing keys. -/
structure CoxpDicts where
  averaged : ℕ → Option PairCols
  total : ℤ × ℤ → ℕ → Option PairCols
  partialProj : ℤ × ℤ → Option String × Option String → ℕ → Option PairCols

/-- The body of the inner pair loop (lobster.py lines 182-199) for spin `s`
and enumerated pair `(j, p)`: orbitalwise pairs (`p[2] is not None`) write
the `partial` dictionary at both index orders with the orbital tuple
swapped accordingly; other pairs write the `total` dictionary at both index
orders. -/
def processPair1 (toks : List ℚ) (ncols nsteps base s j : ℕ)
    (p : PairData) (st : CoxpDicts) : CoxpDicts :=
  let single := col toks ncols nsteps (base + 2 * (j + 1))
  let integrated := col toks ncols nsteps (base + 2 * (j + 1) + 1)
  let v : PairCols := ⟨single, integrated⟩
  if p.orb1.isSome then
    { st with partialProj := fun k o sp =>
        if k = (p.index2, p.index1) ∧ o = (p.orb2, p.orb1) ∧ sp = s then some v
        else if k = (p.index1, p.index2) ∧ o = (p.orb1, p.orb2) ∧ sp = s then some v
        else st.partialProj k o sp }
  else
    { st with total := fun k sp =>
        if k = (p.index2, p.index1) ∧ sp = s then some v
        else if k = (p.index1, p.index2) ∧ sp = s then some v
        else st.total k sp }

/-- `for j, p in enumerate(pairs_data)` starting at index `j`. -/
def processPairs (toks : List ℚ) (ncols nsteps base s : ℕ) :
    ℕ → List PairData → CoxpDicts → CoxpDicts
  | _, [], st => st
  | j, p :: rest, st =>
    processPairs toks ncols nsteps base s (j + 1) rest
      (processPair1 toks ncols nsteps base s j p st)

/-- The body of the outer spin loop (lobster.py lines 178-199):
`base_index = 1 + i*n_column_groups*2` (the enumeration index `i` equals
the spin value `s` since `spins = [0, 1][:n_spin]`), the two averaged
columns, then the pair loop. -/
def processSpin (toks : List ℚ) (ncols nsteps ncg : ℕ)
    (pairs : List PairData) (st : CoxpDicts) (s : ℕ) : CoxpDicts :=
  let base := 1 + s * ncg * 2
  let st1 : CoxpDicts :=
    { st with averaged := fun sp =>
        if sp = s then
          some ⟨col toks ncols nsteps base, col toks ncols nsteps (base + 1)⟩
        else st.averaged sp }
  processPairs toks ncols nsteps base s 0 pairs st1

/-- The parsed `Coxp` object: the fields the claims are about. -/
structure Coxp where
  fermie : ℚ
  energies : List ℚ
  averaged : ℕ → Option PairCols
  total : ℤ × ℤ → ℕ → Option PairCols
  partialProj : ℤ × ℤ → Option String × Option String → ℕ → Option PairCols
  type_of_index : ℤ → Option String
  nsppol : ℕ

/-- `Coxp.from_file` (lobster.py lines 110-206) over a pre-lexed file:
header search (`ValueError` when absent, `fermie` from the sixth group),
pair collection with `n_pairs = n_column_groups - 1`, the numeric tail
reshaped to `[n_en_steps, 1 + n_spin*n_column_groups*2]` (an error unless
the token count matches exactly), `energies = data[:, 0]`, and the spin and
pair loops filling `averaged`, `total` and `partial`;
`nsppol = len(averaged)`. -/
def Coxp.from_file (lines : List CLine) : Except CoxpErr Coxp :=
  match findHeader lines with
  | none => .error .noHeader
  | some (h, rest) =>
    match collectPairs ((h.n_column_groups : ℤ) - 1) 0 (fun _ => none) rest with
    | .error e => .error e
    | .ok (pairs, tmap, rc) =>
      let spins := spinsOf h.n_spin
      let ncols := 1 + h.n_spin * h.n_column_groups * 2
      let toks := dataTokens rc
      if toks.length = h.n_en_steps * ncols then
        let dicts := spins.foldl
          (processSpin toks ncols h.n_en_steps h.n_column_groups pairs)
          ⟨fun _ => none, fun _ _ => none, fun _ _ _ => none⟩
        .ok { fermie := h.fermie,
              energies := col toks ncols h.n_en_steps 0,
              averaged := dicts.averaged,
              total := dicts.total,
              partialProj := dicts.partialProj,
              type_of_index := tmap,
              nsppol := spins.length }
      else .error .badShape

/-! ### Lobster ICOHPLIST/ICOOPLIST parsing (`ICoxp.from_file`) -/

/-- The groups of a `data_patt` match in `ICoxp.from_file` (lobster.py
lines 532-533): two element/index pairs, a distance (kept as the matched
string, as the source stores it unconverted), the average, and an optional
bond count. -/
structure ICoxpGroups where
  type1 : String
  idx1 : ℕ
  type2 : String
  idx2 : ℕ
  dist : String
  avg : ℚ
  nbonds : Option ℕ

/-- A pre-lexed line of an ICOHPLIST/ICOOPLIST file: the results of
`re.match` against `header_patt` (the optional `over # bonds` marker and
the spin digit) and against `data_patt`.  The source tries both patterns
on every line, so both options are carried. -/
structure ICLine where
  hdr : Option (Bool × ℕ)
  dat : Option ICoxpGroups

/-- The `avg_data` record (lobster.py line 555). -/
structure ICRecord where
  average : ℚ
  distance : String
  n_bonds : Option ℕ
  deriving DecidableEq

/-- Errors raised by `ICoxp.from_file`. -/
inductive ICErr where
  | indexError
  deriving DecidableEq, Repr

/-- `spin = [0, 1][int(match.group(2)) - 1]` (lobster.py line 545) with
Python list-index semantics: digit 1 selects 0, digit 2 selects 1, digit 0
selects index -1 (the last element, 1), anything else raises
`IndexError`. -/
def pickSpin (g2 : ℕ) : Except ICErr ℕ :=
  if g2 = 1 then .ok 0
  else if g2 = 2 then .ok 1
  else if g2 = 0 then .ok 1
  else .error .indexError

/-- The parsed `ICoxp` object.  `values` is keyed by the 0-based site pair
and the spin; the spin key is `Option ℕ` because data lines met before any
spin header are stored under Python's `None`. -/
structure ICoxp where
  values : ℤ × ℤ → Option ℕ → Option ICRecord

/-- The running state of the `ICoxp.from_file` loop: the current spin and
the `values` map. -/
structure ICState where
  spin : Option ℕ
  values : ℤ × ℤ → Option ℕ → Option ICRecord

/-- One iteration of the `ICoxp.from_file` line loop (lobster.py lines
542-557): a `header_patt` match updates the current spin; a `data_patt`
match 0-bases the indices and stores the same `avg_data` record under both
`(index1, index2)` and `(index2, index1)`. -/
def icStep (st : ICState) (l : ICLine) : Except ICErr ICState := do
  let st1 ←
    match l.hdr with
    | some (_avgB, g2) => (pickSpin g2).map fun sp => { st with spin := some sp }
    | none => pure st
  match l.dat with
  | some g =>
    let i1 : ℤ := (g.idx1 : ℤ) - 1
    let i2 : ℤ := (g.idx2 : ℤ) - 1
    let rec0 : ICRecord := ⟨g.avg, g.dist, g.nbonds⟩
    let f1 : ℤ × ℤ → Option ℕ → Option ICRecord :=
      fun k sp => if k = (i1, i2) ∧ sp = st1.spin then some rec0 else st1.values k sp
    let f2 : ℤ × ℤ → Option ℕ → Option ICRecord :=
      fun k sp => if k = (i2, i1) ∧ sp = st1.spin then some rec0 else f1 k sp
    pure { st1 with values := f2 }
  | none => pure st1

/-- `ICoxp.from_file` (lobster.py lines 518-563) over a pre-lexed file:
fold the line loop from spin `None` and an empty `values` dictionary. -/
def ICoxp.from_file (lines : List ICLine) : Except ICErr ICoxp :=
  (lines.foldlM icStep { spin := none, values := fun _ _ => none }).map
    fun st => { values := st.values }

/-! ### C7 -/

theorem findHeader_none (lines : List CLine)
    (h : ∀ l ∈ lines, l.hdr = none) : findHeader lines = none := by
  induction lines with
  | nil => rfl
  | cons l rest ih =>
    unfold findHeader
    rw [h l (by simp)]
    exact ih fun l' hl' => h l' (by simp [hl'])

theorem except_map_error {α β ε : Type} (f : α → β) (x : Except ε α) (e : ε)
    (h : Except.map f x = .error e) : x = .error e := by
  cases x <;> simp_all [Except.map]

theorem collectPairs_error (np_ : ℤ) (count : ℕ) (tmap : ℤ → Option String)
    (ls : List CLine) (e : CoxpErr)
    (h : collectPairs np_ count tmap ls = .error e) : e = .assertFail := by
  induction ls generalizing count tmap with
  | nil => cases h
  | cons l rest ih =>
    unfold collectPairs at h
    split at h
    · exact ih _ _ h
    · dsimp only at h
      split at h
      · split at h
        · split at h
          · cases h
          · exact ih _ _ (except_map_error _ _ _ h)
        · cases h; rfl
      · cases h; rfl

/-- C7: `Coxp.from_file` raises the "Can't find the header" `ValueError`
exactly when no line matches the header pattern; when a header line is
found, `fermie` is set to its sixth matched field and parsing continues
(any later failure is a different error). -/
theorem claim_C7_header (lines : List CLine) :
    ((∀ l ∈ lines, l.hdr = none) →
      Coxp.from_file lines = Except.error .noHeader) ∧
    (∀ h rest, findHeader lines = some (h, rest) →
      Coxp.from_file lines ≠ Except.error .noHeader ∧
      ∀ c, Coxp.from_file lines = Except.ok c → c.fermie = h.fermie) := by
  constructor
  · intro hall
    unfold Coxp.from_file
    rw [findHeader_none lines hall]
  · intro h rest hfind
    unfold Coxp.from_file
    rw [hfind]
    dsimp only
    cases hcp : collectPairs ((h.n_column_groups : ℤ) - 1) 0 (fun _ => none) rest with
    | error e =>
      have he := collectPairs_error _ _ _ _ _ hcp
      subst he
      exact ⟨by simp, fun c hc => by cases hc⟩
    | ok r =>
      obtain ⟨pairs, tmap, rc⟩ := r
      dsimp only
      split
      · exact ⟨by simp, fun c hc => by cases hc; rfl⟩
      · exact ⟨by simp, fun c hc => by cases hc⟩

/-- A line matching no pattern. -/
def noHdrLine : CLine := ⟨none, none, [1, 2]⟩

/-- Header of the small sample COOPCAR file: 2 column groups (1 pair),
1 spin, 1 energy step, Fermi energy 5. -/
def lobHeader : CoxpHeader := ⟨2, 1, 1, 0, 0, 5⟩

/-- The pair line `No.1:Ga1->As2` of the sample file. -/
def lobPairLine : CLine := ⟨none, some ⟨"Ga", 1, none, "As", 2, none⟩, []⟩

/-- The numeric line of the sample file (1 row of 5 columns). -/
def lobDataLine : CLine := ⟨none, none, [7, 8, 9, 10, 11]⟩

/-- A well-formed pre-lexed COOPCAR file. -/
def lobFile : List CLine := [⟨some lobHeader, none, []⟩, lobPairLine, lobDataLine]

/-- Witness for C7: a header-less file raises the no-header error; the
sample file parses and gets `fermie = 5`. -/
theorem claim_C7_witness :
    (∀ l ∈ [noHdrLine], l.hdr = none) ∧
    Coxp.from_file [noHdrLine] = Except.error .noHeader ∧
    findHeader lobFile = some (lobHeader, [lobPairLine, lobDataLine]) ∧
    (Coxp.from_file lobFile ≠ Except.error .noHeader ∧
      ∀ c, Coxp.from_file lobFile = Except.ok c → c.fermie = lobHeader.fermie) :=
  ⟨by simp [noHdrLine],
   (claim_C7_header [noHdrLine]).1 (by simp [noHdrLine]),
   rfl,
   (claim_C7_header lobFile).2 lobHeader [lobPairLine, lobDataLine] rfl⟩

/-! ### C9 -/

/-- Symmetry of the `total` dictionary under exchange of the pair. -/
def TotalSym (f : ℤ × ℤ → ℕ → Option PairCols) : Prop :=
  ∀ i j s, f (i, j) s = f (j, i) s

/-- Symmetry of the `partial` dictionary under exchange of the pair and of
the orbital tuple. -/
def PartialSym
    (f : ℤ × ℤ → Option String × Option String → ℕ → Option PairCols) : Prop :=
  ∀ i j o1 o2 s, f (i, j) (o1, o2) s = f (j, i) (o2, o1) s

/-- Symmetry of both pair dictionaries. -/
def DictsSym (st : CoxpDicts) : Prop :=
  TotalSym st.total ∧ PartialSym st.partialProj

theorem processPair1_sym (toks : List ℚ) (ncols nsteps base s j : ℕ)
    (p : PairData) (st : CoxpDicts) (hst : DictsSym st) :
    DictsSym (processPair1 toks ncols nsteps base s j p st) := by
  unfold processPair1
  dsimp only
  split
  · refine ⟨hst.1, fun i j' o1 o2 sp => ?_⟩
    dsimp only
    simp only [Prod.mk.injEq]
    split_ifs <;>
      first
        | rfl
        | (exact hst.2 i j' o1 o2 sp)
        | tauto
  · refine ⟨fun i j' sp => ?_, hst.2⟩
    dsimp only
    simp only [Prod.mk.injEq]
    split_ifs <;>
      first
        | rfl
        | (exact hst.1 i j' sp)
        | tauto

theorem processPairs_sym (toks : List ℚ) (ncols nsteps base s : ℕ)
    (l : List PairData) :
    ∀ (j : ℕ) (st : CoxpDicts), DictsSym st →
      DictsSym (processPairs toks ncols nsteps base s j l st) := by
  induction l with
  | nil => intro j st hst; exact hst
  | cons p rest ih =>
    intro j st hst
    exact ih (j + 1) _ (processPair1_sym toks ncols nsteps base s j p st hst)

theorem processSpin_sym (toks : List ℚ) (ncols nsteps ncg : ℕ)
    (pairs : List PairData) (st : CoxpDicts) (s : ℕ) (hst : DictsSym st) :
    DictsSym (processSpin toks ncols nsteps ncg pairs st s) := by
  unfold processSpin
  exact processPairs_sym toks ncols nsteps _ s pairs 0 _ hst

theorem foldl_spins_sym (toks : List ℚ) (ncols nsteps ncg : ℕ)
    (pairs : List PairData) (spins : List ℕ) :
    ∀ st : CoxpDicts, DictsSym st →
      DictsSym (spins.foldl (processSpin toks ncols nsteps ncg pairs) st) := by
  induction spins with
  | nil => intro st hst; exact hst
  | cons s rest ih =>
    intro st hst
    exact ih _ (processSpin_sym toks ncols nsteps ncg pairs st s hst)

/-- Symmetry of the ICoxp `values` dictionary under exchange of the pair. -/
def ValsSym (f : ℤ × ℤ → Option ℕ → Option ICRecord) : Prop :=
  ∀ i j sp, f (i, j) sp = f (j, i) sp

theorem icStep_sym (st : ICState) (l : ICLine) (st' : ICState)
    (h : icStep st l = Except.ok st') (hst : ValsSym st.values) :
    ValsSym st'.values := by
  unfold icStep at h
  rcases l with ⟨hdr, dat⟩
  rcases hdr with _ | ⟨avgB, g2⟩ <;> rcases dat with _ | g <;>
    simp only [Bind.bind, Except.bind, Except.map, pickSpin] at h
  · cases h
    exact hst
  · cases h
    intro i j sp
    dsimp only
    simp only [Prod.mk.injEq]
    split_ifs <;>
      first
        | rfl
        | (exact hst i j sp)
        | tauto
  · split_ifs at h <;> cases h <;> exact hst
  · split_ifs at h <;> cases h <;>
      (intro i j sp
       dsimp only
       simp only [Prod.mk.injEq]
       split_ifs <;>
         first
           | rfl
           | (exact hst i j sp)
           | tauto)

theorem foldlM_ic_sym (lines : List ICLine) :
    ∀ st st', lines.foldlM icStep st = Except.ok st' →
      ValsSym st.values → ValsSym st'.values := by
  induction lines with
  | nil =>
    intro st st' h hst
    cases h
    exact hst
  | cons l rest ih =>
    intro st st' h hst
    rw [List.foldlM_cons] at h
    cases hstep : icStep st l with
    | error e => rw [hstep] at h; cases h
    | ok st1 =>
      rw [hstep] at h
      simp only [Bind.bind, Except.bind] at h
      exact ih st1 st' h (icStep_sym st l st1 hstep hst)

/-- C9: the parsed Lobster pair dictionaries are symmetric under exchange
of the two sites of a pair: after `Coxp.from_file`, `total[(i,j)][spin]`
equals `total[(j,i)][spin]` and `partial[(i,j)][(o1,o2)][spin]` equals
`partial[(j,i)][(o2,o1)][spin]`; after `ICoxp.from_file`,
`values[(i,j)][spin]` equals `values[(j,i)][spin]`. -/
theorem claim_C9_pair_symmetry :
    (∀ (lines : List CLine) (c : Coxp), Coxp.from_file lines = Except.ok c →
      (∀ i j s, c.total (i, j) s = c.total (j, i) s) ∧
      (∀ i j o1 o2 s,
        c.partialProj (i, j) (o1, o2) s = c.partialProj (j, i) (o2, o1) s)) ∧
    (∀ (lines : List ICLine) (ic : ICoxp),
      ICoxp.from_file lines = Except.ok ic →
      ∀ i j sp, ic.values (i, j) sp = ic.values (j, i) sp) := by
  constructor
  · intro lines c h
    unfold Coxp.from_file at h
    cases hf : findHeader lines with
    | none => rw [hf] at h; cases h
    | some hr =>
      obtain ⟨hd, rest⟩ := hr
      rw [hf] at h
      dsimp only at h
      cases hcp : collectPairs ((hd.n_column_groups : ℤ) - 1) 0
          (fun _ => none) rest with
      | error e => rw [hcp] at h; cases h
      | ok r =>
        obtain ⟨pairs, tmap, rc⟩ := r
        rw [hcp] at h
        dsimp only at h
        split at h
        · cases h
          have hsym := foldl_spins_sym (dataTokens rc)
            (1 + hd.n_spin * hd.n_column_groups * 2) hd.n_en_steps
            hd.n_column_groups pairs (spinsOf hd.n_spin)
            ⟨fun _ => none, fun _ _ => none, fun _ _ _ => none⟩
            ⟨fun _ _ _ => rfl, fun _ _ _ _ _ => rfl⟩
          exact ⟨hsym.1, hsym.2⟩
        · cases h
  · intro lines ic h
    unfold ICoxp.from_file at h
    cases hfold : lines.foldlM icStep
        { spin := none, values := fun _ _ => none } with
    | error e => rw [hfold] at h; cases h
    | ok st =>
      rw [hfold] at h
      simp only [Except.map] at h
      cases h
      exact foldlM_ic_sym lines _ st hfold (fun _ _ _ => rfl)

/-! ### C6 -/

/-- A processed pair line writes the `total` dictionary at key `k` when it
is non-orbitalwise and one of its two index orders is `k`. -/
def writesTotal (p : PairData) (k : ℤ × ℤ) : Prop :=
  p.orb1 = none ∧ (k = (p.index1, p.index2) ∨ k = (p.index2, p.index1))

theorem col_length (toks : List ℚ) (ncols nsteps k : ℕ) :
    (col toks ncols nsteps k).length = nsteps := by
  simp [col]

theorem processPair1_total_skip (toks : List ℚ) (ncols nsteps base s j : ℕ)
    (p : PairData) (st : CoxpDicts) (k : ℤ × ℤ) (sp : ℕ)
    (hnw : ¬ writesTotal p k) :
    (processPair1 toks ncols nsteps base s j p st).total k sp = st.total k sp := by
  unfold processPair1
  dsimp only
  split
  · rfl
  · have ho : p.orb1 = none := by
      rename_i hiso
      exact Option.not_isSome_iff_eq_none.mp hiso
    have hk : ¬ k = (p.index1, p.index2) ∧ ¬ k = (p.index2, p.index1) := by
      constructor <;> intro hc <;> exact hnw ⟨ho, by tauto⟩
    dsimp only
    rw [if_neg (by tauto), if_neg (by tauto)]

theorem processPairs_total_skip (toks : List ℚ) (ncols nsteps base s : ℕ)
    (l : List PairData) :
    ∀ (j : ℕ) (st : CoxpDicts) (k : ℤ × ℤ) (sp : ℕ),
      (∀ p' ∈ l, ¬ writesTotal p' k) →
      (processPairs toks ncols nsteps base s j l st).total k sp = st.total k sp := by
  induction l with
  | nil => intro j st k sp _; rfl
  | cons p rest ih =>
    intro j st k sp hnw
    unfold processPairs
    rw [ih (j + 1) _ k sp fun p' hp' => hnw p' (by simp [hp'])]
    exact processPair1_total_skip toks ncols nsteps base s j p st k sp
      (hnw p (by simp))

theorem processPair1_total_other_spin (toks : List ℚ)
    (ncols nsteps base s j : ℕ) (p : PairData) (st : CoxpDicts)
    (k : ℤ × ℤ) (sp : ℕ) (hsp : sp ≠ s) :
    (processPair1 toks ncols nsteps base s j p st).total k sp = st.total k sp := by
  unfold processPair1
  dsimp only
  split
  · rfl
  · dsimp only
    rw [if_neg (by tauto), if_neg (by tauto)]

theorem processPairs_total_other_spin (toks : List ℚ)
    (ncols nsteps base s : ℕ) (l : List PairData) :
    ∀ (j : ℕ) (st : CoxpDicts) (k : ℤ × ℤ) (sp : ℕ), sp ≠ s →
      (processPairs toks ncols nsteps base s j l st).total k sp = st.total k sp := by
  induction l with
  | nil => intro j st k sp _; rfl
  | cons p rest ih =>
    intro j st k sp hsp
    unfold processPairs
    rw [ih (j + 1) _ k sp hsp]
    exact processPair1_total_other_spin toks ncols nsteps base s j p st k sp hsp

theorem processSpin_total_other_spin (toks : List ℚ) (ncols nsteps ncg : ℕ)
    (pairs : List PairData) (st : CoxpDicts) (s : ℕ) (k : ℤ × ℤ) (sp : ℕ)
    (hsp : sp ≠ s) :
    (processSpin toks ncols nsteps ncg pairs st s).total k sp = st.total k sp := by
  unfold processSpin
  exact processPairs_total_other_spin toks ncols nsteps _ s pairs 0 _ k sp hsp

theorem processPair1_total_hit (toks : List ℚ) (ncols nsteps base s j : ℕ)
    (p : PairData) (st : CoxpDicts) (ho : p.orb1 = none) :
    (processPair1 toks ncols nsteps base s j p st).total (p.index1, p.index2) s =
      some ⟨col toks ncols nsteps (base + 2 * (j + 1)),
            col toks ncols nsteps (base + 2 * (j + 1) + 1)⟩ := by
  unfold processPair1
  dsimp only
  rw [if_neg (by simp [ho])]
  dsimp only
  by_cases hkk : ((p.index1, p.index2) : ℤ × ℤ) = (p.index2, p.index1)
  · rw [if_pos ⟨hkk, rfl⟩]
  · rw [if_neg (by tauto), if_pos ⟨rfl, rfl⟩]

theorem processPairs_total_hit (toks : List ℚ) (ncols nsteps base s : ℕ)
    (l : List PairData) :
    ∀ (j0 : ℕ) (st : CoxpDicts) (t : ℕ) (p : PairData),
      l.get? t = some p → p.orb1 = none →
      (∀ t' p', t' ≠ t → l.get? t' = some p' →
        ¬ writesTotal p' (p.index1, p.index2)) →
      (processPairs toks ncols nsteps base s j0 l st).total
          (p.index1, p.index2) s =
        some ⟨col toks ncols nsteps (base + 2 * (j0 + t + 1)),
              col toks ncols nsteps (base + 2 * (j0 + t + 1) + 1)⟩ := by
  induction l with
  | nil => intro j0 st t p hget; cases hget
  | cons q rest ih =>
    intro j0 st t p hget ho hnw
    unfold processPairs
    cases t with
    | zero =>
      have hq : q = p := by simpa using hget
      subst hq
      rw [processPairs_total_skip toks ncols nsteps base s rest (j0 + 1) _
        (q.index1, q.index2) s ?nw]
      case nw =>
        intro p' hp'
        obtain ⟨u, hu⟩ := List.get?_of_mem hp'
        exact hnw (u + 1) p' (by omega) (by simpa using hu)
      have := processPair1_total_hit toks ncols nsteps base s j0 q st ho
      rw [this]
    | succ u =>
      have harith : j0 + 1 + u + 1 = j0 + (u + 1) + 1 := by omega
      have := ih (j0 + 1) (processPair1 toks ncols nsteps base s j0 q st) u p
        (by simpa using hget) ho ?nw'
      case nw' =>
        intro t' p' ht' hget'
        exact hnw (t' + 1) p' (by omega) (by simpa using hget')
      rw [this, harith]

theorem processPair1_averaged (toks : List ℚ) (ncols nsteps base s j : ℕ)
    (p : PairData) (st : CoxpDicts) :
    (processPair1 toks ncols nsteps base s j p st).averaged = st.averaged := by
  unfold processPair1
  dsimp only
  split <;> rfl

theorem processPairs_averaged (toks : List ℚ) (ncols nsteps base s : ℕ)
    (l : List PairData) :
    ∀ (j : ℕ) (st : CoxpDicts),
      (processPairs toks ncols nsteps base s j l st).averaged = st.averaged := by
  induction l with
  | nil => intro j st; rfl
  | cons p rest ih =>
    intro j st
    unfold processPairs
    rw [ih (j + 1), processPair1_averaged]

theorem processSpin_averaged (toks : List ℚ) (ncols nsteps ncg : ℕ)
    (pairs : List PairData) (st : CoxpDicts) (s : ℕ) :
    (processSpin toks ncols nsteps ncg pairs st s).averaged = fun sp =>
      if sp = s then
        some ⟨col toks ncols nsteps (1 + s * ncg * 2),
              col toks ncols nsteps (1 + s * ncg * 2 + 1)⟩
      else st.averaged sp := by
  unfold processSpin
  rw [processPairs_averaged]

theorem processSpin_total_hit (toks : List ℚ) (ncols nsteps ncg : ℕ)
    (pairs : List PairData) (st : CoxpDicts) (s : ℕ) (t : ℕ) (p : PairData)
    (hget : pairs.get? t = some p) (ho : p.orb1 = none)
    (hnw : ∀ t' p', t' ≠ t → pairs.get? t' = some p' →
      ¬ writesTotal p' (p.index1, p.index2)) :
    (processSpin toks ncols nsteps ncg pairs st s).total (p.index1, p.index2) s =
      some ⟨col toks ncols nsteps (1 + s * ncg * 2 + 2 * (t + 1)),
            col toks ncols nsteps (1 + s * ncg * 2 + 2 * (t + 1) + 1)⟩ := by
  unfold processSpin
  dsimp only
  rw [show t + 1 = 0 + t + 1 from by omega]
  exact processPairs_total_hit toks ncols nsteps (1 + s * ncg * 2) s pairs 0 _
    t p hget ho hnw

/-- C6 (amended): for a successfully parsed COOPCAR/COHPCAR file,
`energies` is the first data column; for each spin, `averaged[spin]` holds
the first two columns of that spin's block; and for each non-orbitalwise
pair line whose unordered site pair occurs in no other non-orbitalwise pair
line, `total` maps the 0-based pair key and each spin to that line's
`single`/`integrated` columns, each of length `n_en_steps` (if the same
unordered pair occurs on several non-orbitalwise lines the last one wins,
so the restriction is necessary). -/
theorem claim_C6_coxp_columns (lines : List CLine) (h : CoxpHeader)
    (rest : List CLine) (pairs : List PairData) (tmap : ℤ → Option String)
    (rc : List CLine) (c : Coxp)
    (hfind : findHeader lines = some (h, rest))
    (hcp : collectPairs ((h.n_column_groups : ℤ) - 1) 0 (fun _ => none) rest =
      Except.ok (pairs, tmap, rc))
    (hok : Coxp.from_file lines = Except.ok c) :
    (c.energies =
      col (dataTokens rc) (1 + h.n_spin * h.n_column_groups * 2) h.n_en_steps 0 ∧
     c.energies.length = h.n_en_steps) ∧
    (∀ s ∈ spinsOf h.n_spin,
      c.averaged s = some
        ⟨col (dataTokens rc) (1 + h.n_spin * h.n_column_groups * 2) h.n_en_steps
          (1 + s * h.n_column_groups * 2),
         col (dataTokens rc) (1 + h.n_spin * h.n_column_groups * 2) h.n_en_steps
          (1 + s * h.n_column_groups * 2 + 1)⟩) ∧
    (∀ t p, pairs.get? t = some p → p.orb1 = none →
      (∀ t' p', t' ≠ t → pairs.get? t' = some p' →
        ¬ writesTotal p' (p.index1, p.index2)) →
      ∀ s ∈ spinsOf h.n_spin,
        c.total (p.index1, p.index2) s = some
          ⟨col (dataTokens rc) (1 + h.n_spin * h.n_column_groups * 2)
            h.n_en_steps (1 + s * h.n_column_groups * 2 + 2 * (t + 1)),
           col (dataTokens rc) (1 + h.n_spin * h.n_column_groups * 2)
            h.n_en_steps (1 + s * h.n_column_groups * 2 + 2 * (t + 1) + 1)⟩ ∧
        (col (dataTokens rc) (1 + h.n_spin * h.n_column_groups * 2)
          h.n_en_steps (1 + s * h.n_column_groups * 2 + 2 * (t + 1))).length =
          h.n_en_steps ∧
        (col (dataTokens rc) (1 + h.n_spin * h.n_column_groups * 2)
          h.n_en_steps
          (1 + s * h.n_column_groups * 2 + 2 * (t + 1) + 1)).length =
          h.n_en_steps) := by
  unfold Coxp.from_file at hok
  rw [hfind] at hok
  dsimp only at hok
  rw [hcp] at hok
  dsimp only at hok
  split at hok
  case isFalse => cases hok
  case isTrue =>
    cases hok
    have hsp3 : spinsOf h.n_spin = [] ∨ spinsOf h.n_spin = [0] ∨
        spinsOf h.n_spin = [0, 1] := by
      unfold spinsOf
      split_ifs <;> simp
    refine ⟨⟨rfl, col_length _ _ _ _⟩, fun s hs => ?_, fun t p hget ho hnw s hs => ?_⟩
    · rcases hsp3 with he | he | he <;> rw [he] at hs ⊢ <;> simp only [List.foldl]
      · exact absurd hs (by simp)
      · have hs0 : s = 0 := by simpa using hs
        subst hs0
        simp [processSpin_averaged]
      · have hs01 : s = 0 ∨ s = 1 := by simpa using hs
        rcases hs01 with hs0 | hs1
        · subst hs0
          simp [processSpin_averaged]
        · subst hs1
          simp [processSpin_averaged]
    · refine ⟨?_, col_length _ _ _ _, col_length _ _ _ _⟩
      rcases hsp3 with he | he | he <;> rw [he] at hs ⊢ <;> simp only [List.foldl]
      · exact absurd hs (by simp)
      · have hs0 : s = 0 := by simpa using hs
        subst hs0
        exact processSpin_total_hit _ _ _ _ pairs _ 0 t p hget ho hnw
      · have hs01 : s = 0 ∨ s = 1 := by simpa using hs
        rcases hs01 with hs0 | hs1
        · subst hs0
          rw [processSpin_total_other_spin _ _ _ _ pairs _ 1 _ 0 (by omega)]
          exact processSpin_total_hit _ _ _ _ pairs _ 0 t p hget ho hnw
        · subst hs1
          exact processSpin_total_hit _ _ _ _ pairs _ 1 t p hget ho hnw

/-- The pair-collection result on the sample file. -/
def lobCollect :
    Except CoxpErr (List PairData × (ℤ → Option String) × List CLine) :=
  collectPairs ((lobHeader.n_column_groups : ℤ) - 1) 0 (fun _ => none)
    [lobPairLine, lobDataLine]

/-- The collected pairs of the sample file. -/
def lobPairs : List PairData := (lobCollect.toOption.map (·.1)).getD []

/-- The collected `type_of_index` of the sample file. -/
def lobTmap : ℤ → Option String :=
  (lobCollect.toOption.map (·.2.1)).getD fun _ => none

/-- The unread lines of the sample file. -/
def lobRc : List CLine := (lobCollect.toOption.map (·.2.2)).getD []

/-- The parse result of the sample file. -/
def lobParsed : Coxp :=
  (Coxp.from_file lobFile).toOption.getD
    ⟨0, [], fun _ => none, fun _ _ => none, fun _ _ _ => none, fun _ => none, 0⟩

/-- Witness for C6: the sample file parses; its single non-orbitalwise pair
`No.1:Ga1->As2` gets `energies = [7]`, `averaged = ([8], [9])` and
`total[(0,1)][0] = ([10], [11])`. -/
theorem claim_C6_witness :
    Coxp.from_file lobFile = Except.ok lobParsed ∧
    lobPairs.get? 0 = some ⟨"Ga", 0, none, "As", 1, none⟩ ∧
    lobParsed.energies = [7] ∧
    lobParsed.averaged 0 = some ⟨[8], [9]⟩ ∧
    lobParsed.total (0, 1) 0 = some ⟨[10], [11]⟩ := by
  have H := claim_C6_coxp_columns lobFile lobHeader [lobPairLine, lobDataLine]
    lobPairs lobTmap lobRc lobParsed rfl rfl rfl
  refine ⟨rfl, rfl, H.1.1.trans rfl, ?_, ?_⟩
  · exact (H.2.1 0 (by simp [spinsOf, lobHeader])).trans rfl
  · have hhit := H.2.2 0 ⟨"Ga", 0, none, "As", 1, none⟩ rfl rfl ?nw 0
      (by simp [spinsOf, lobHeader])
    case nw =>
      intro t' p' ht' hg
      cases t' with
      | zero => exact absurd rfl ht'
      | succ n => cases hg
    exact hhit.1.trans rfl

/-- Header of the duplicate-pair file: 3 column groups (2 pair lines),
1 spin, 1 energy step. -/
def dupHeader : CoxpHeader := ⟨3, 1, 1, 0, 0, 5⟩

/-- A pair line `No.k:Ga1->As2`, used twice. -/
def dupPair : CLine := ⟨none, some ⟨"Ga", 1, none, "As", 2, none⟩, []⟩

/-- The numeric line of the duplicate-pair file (1 row of 7 columns). -/
def dupData : CLine := ⟨none, none, [0, 1, 2, 10, 11, 20, 21]⟩

/-- A file in which the same non-orbitalwise site pair occurs on two pair
lines. -/
def dupFile : List CLine := [⟨some dupHeader, none, []⟩, dupPair, dupPair, dupData]

/-- Projection: the `total` entry of an `Except`-wrapped parse result. -/
def okCoxpTotal (e : Except CoxpErr Coxp) (k : ℤ × ℤ) (s : ℕ) :
    Option PairCols :=
  match e with
  | .ok c => c.total k s
  | .error _ => none

/-- Counterexample to C6 as stated: `dupFile` parses successfully and its
first pair line `No.1:Ga1->As2` has data columns `([10], [11])`
(columns 3 and 4 of the single row), but `total[(0,1)][0]` holds the second
duplicate line's columns `([20], [21])`: the later assignment overwrote the
earlier pair's entry. -/
theorem claim_C6_counterexample :
    okCoxpTotal (Coxp.from_file dupFile) (0, 1) 0 = some ⟨[20], [21]⟩ ∧
    col (dataTokens [dupData]) 7 1 3 = [10] ∧
    col (dataTokens [dupData]) 7 1 4 = [11] ∧
    (⟨[20], [21]⟩ : PairCols) ≠ ⟨[10], [11]⟩ := by
  refine ⟨rfl, rfl, rfl, fun hcontra => ?_⟩
  have h1 : ([20] : List ℚ) = [10] := congrArg PairCols.single hcontra
  norm_num at h1

/-- A spin-1 header line of an ICOHPLIST file. -/
def icHeaderLine : ICLine := ⟨some (false, 1), none⟩

/-- A data line `Ga1 As2` of an ICOHPLIST file. -/
def icDataLine : ICLine := ⟨none, some ⟨"Ga", 1, "As", 2, "1.5", 5, none⟩⟩

/-- A small pre-lexed ICOHPLIST file. -/
def icFile : List ICLine := [icHeaderLine, icDataLine]

/-- The parse result of the small ICOHPLIST file. -/
def icParsed : ICoxp :=
  (ICoxp.from_file icFile).toOption.getD ⟨fun _ _ => none⟩

/-- Witness for C9: both parsers succeed on the sample files and the
symmetry holds for their dictionaries. -/
theorem claim_C9_witness :
    Coxp.from_file lobFile = Except.ok lobParsed ∧
    ICoxp.from_file icFile = Except.ok icParsed ∧
    (∀ i j s, lobParsed.total (i, j) s = lobParsed.total (j, i) s) ∧
    (∀ i j o1 o2 s, lobParsed.partialProj (i, j) (o1, o2) s =
      lobParsed.partialProj (j, i) (o2, o1) s) ∧
    (∀ i j sp, icParsed.values (i, j) sp = icParsed.values (j, i) sp) :=
  ⟨rfl, rfl, (claim_C9_pair_symmetry.1 lobFile lobParsed rfl).1,
   (claim_C9_pair_symmetry.1 lobFile lobParsed rfl).2,
   claim_C9_pair_symmetry.2 icFile icParsed rfl⟩

/-! ### C8: the optical-spectra flow (`test_optic.py` and the flow layer) -/

/-- The tasks of the optical-spectra pipeline built by `test_optic_flow`:
the band-structure workflow (SCF + NSCF), the three DDK tasks and the
OpticTask. -/
inductive TaskId where
  | scf
  | nscf
  | ddk1
  | ddk2
  | ddk3
  | optic
  deriving DecidableEq, Repr

/-- The dependency registration of `test_optic_flow` (test_optic.py lines
91-128): each DDK task is registered with
`deps={bands_work.nscf_task: "WFK"}`; the OpticTask consumes
`nscf_node=bands_work.nscf_task` and the three DDK nodes (their `1WF`
outputs, line 130).  Modelled from the spec for the parts whose code is not
under src/: `BandStructureWorkflow` registers the NSCF task with a
dependency on the SCF task's `DEN` output. -/
def deps : TaskId → List (TaskId × String)
  | .scf => []
  | .nscf => [(.scf, "DEN")]
  | .ddk1 => [(.nscf, "WFK")]
  | .ddk2 => [(.nscf, "WFK")]
  | .ddk3 => [(.nscf, "WFK")]
  | .optic => [(.nscf, "WFK"), (.ddk1, "1WF"), (.ddk2, "1WF"), (.ddk3, "1WF")]

/-- Task status: `done` is `S_DONE`. -/
inductive TStatus where
  | init
  | running
  | done
  deriving DecidableEq, Repr

/-- Scheduler events: a task is started, or a started task completes. -/
inductive Ev where
  | start (t : TaskId)
  | finish (t : TaskId)
  deriving DecidableEq, Repr

/-- Modelled from the spec: the flow/task scheduling layer is not under
src/; per the spec it launches a task, polls its status and moves on, with
a dependent task started only when the tasks it depends on are `S_DONE`
(this is what `start_and_wait` + `deps` enforce).  One scheduler step:
starting a task requires it untouched and all its dependencies `done`;
finishing requires it `running`. -/
def step (st : TaskId → TStatus) : Ev → Option (TaskId → TStatus)
  | .start t =>
    if st t = .init ∧ ∀ d ∈ deps t, st d.1 = .done then
      some fun u => if u = t then .running else st u
    else none
  | .finish t =>
    if st t = .running then
      some fun u => if u = t then .done else st u
    else none

/-- Run a trace of scheduler events from a state; `none` when some event
is illegal. -/
def run (st : TaskId → TStatus) : List Ev → Option (TaskId → TStatus)
  | [] => some st
  | e :: rest =>
    match step st e with
    | none => none
    | some st' => run st' rest

/-- All tasks untouched. -/
def initSt : TaskId → TStatus := fun _ => .init

theorem run_append (tr1 tr2 : List Ev) :
    ∀ st0, run st0 (tr1 ++ tr2) =
      (run st0 tr1).bind fun st => run st tr2 := by
  induction tr1 with
  | nil => intro st0; rfl
  | cons e rest ih =>
    intro st0
    rw [List.cons_append]
    show (match step st0 e with
      | none => none
      | some st' => run st' (rest ++ tr2)) =
      (match step st0 e with
        | none => none
        | some st' => run st' rest).bind fun st => run st tr2
    cases step st0 e with
    | none => rfl
    | some st' => exact ih st'

theorem run_single (st0 : TaskId → TStatus) (e : Ev) (st : TaskId → TStatus) :
    run st0 [e] = some st ↔ step st0 e = some st := by
  unfold run
  cases step st0 e <;> simp [run]

/-- The scheduler invariant for a processed prefix `p`: a `done` task has a
`finish` event in `p`, a touched task has a `start` event in `p`, a
finished task was started in `p`, and a started task had all its
dependencies finished within `p` before it. -/
def Inv (p : List Ev) (st : TaskId → TStatus) : Prop :=
  (∀ t, st t = .done → Ev.finish t ∈ p) ∧
  (∀ t, st t ≠ .init → Ev.start t ∈ p) ∧
  (∀ t, Ev.finish t ∈ p → Ev.start t ∈ p) ∧
  (∀ t, Ev.start t ∈ p → ∀ d ∈ deps t, Ev.finish d.1 ∈ p)

theorem run_inv (p : List Ev) :
    ∀ st, run initSt p = some st → Inv p st := by
  induction p using List.reverseRecOn with
  | nil =>
    intro st h
    cases h
    refine ⟨fun t ht => ?_, fun t ht => ?_, fun t ht => ?_, fun t ht => ?_⟩
    · exact absurd ht (by simp [initSt])
    · exact absurd rfl ht
    · exact absurd ht (by simp)
    · exact absurd ht (by simp)
  | append_singleton p' e ih =>
    intro st h
    rw [run_append] at h
    cases hrun : run initSt p' with
    | none => rw [hrun] at h; cases h
    | some st1 =>
      rw [hrun] at h
      simp only [Option.some_bind] at h
      obtain ⟨h1, h2, h3, h4⟩ := ih st1 hrun
      cases e with
      | start u =>
        rw [run_single] at h
        simp only [step] at h
        split at h
        next hcond =>
          cases h
          refine ⟨fun t ht => ?_, fun t ht => ?_, fun t ht => ?_, fun t ht => ?_⟩
          · have htu : t ≠ u := by
              intro he
              subst he
              simp at ht
            simp only [if_neg htu] at ht
            exact List.mem_append_left _ (h1 t ht)
          · by_cases htu : t = u
            · subst htu
              simp
            · simp only [if_neg htu] at ht
              exact List.mem_append_left _ (h2 t ht)
          · rw [List.mem_append] at ht
            rcases ht with ht | ht
            · exact List.mem_append_left _ (h3 t ht)
            · simp at ht
          · rw [List.mem_append] at ht
            rcases ht with ht | ht
            · intro d hd
              exact List.mem_append_left _ (h4 t ht d hd)
            · have htu : t = u := by simpa using ht
              subst htu
              intro d hd
              exact List.mem_append_left _ (h1 d.1 (hcond.2 d hd))
        next => cases h
      | finish u =>
        rw [run_single] at h
        simp only [step] at h
        split at h
        next hcond =>
          cases h
          refine ⟨fun t ht => ?_, fun t ht => ?_, fun t ht => ?_, fun t ht => ?_⟩
          · by_cases htu : t = u
            · subst htu
              simp
            · simp only [if_neg htu] at ht
              exact List.mem_append_left _ (h1 t ht)
          · by_cases htu : t = u
            · subst htu
              exact List.mem_append_left _ (h2 t (by rw [hcond]; simp))
            · simp only [if_neg htu] at ht
              exact List.mem_append_left _ (h2 t ht)
          · rw [List.mem_append] at ht
            rcases ht with ht | ht
            · exact List.mem_append_left _ (h3 t ht)
            · have htu : t = u := by simpa using ht
              subst htu
              exact List.mem_append_left _ (h2 t (by rw [hcond]; simp))
          · rw [List.mem_append] at ht
            rcases ht with ht | ht
            · intro d hd
              exact List.mem_append_left _ (h4 t ht d hd)
            · simp at ht
        next => cases h

theorem start_requires_deps_finished (p q : List Ev) (t : TaskId)
    (st : TaskId → TStatus)
    (h : run initSt (p ++ Ev.start t :: q) = some st) :
    ∀ d ∈ deps t, Ev.finish d.1 ∈ p := by
  rw [run_append] at h
  cases hrun : run initSt p with
  | none => rw [hrun] at h; cases h
  | some st1 =>
    rw [hrun] at h
    simp only [Option.some_bind] at h
    have hinv := run_inv p st1 hrun
    intro d hd
    cases hstep : step st1 (Ev.start t) with
    | none =>
      unfold run at h
      rw [hstep] at h
      cases h
    | some st2 =>
      simp only [step] at hstep
      split at hstep
      next hcond => exact hinv.1 d.1 (hcond.2 d hd)
      next => cases hstep

theorem run_prefix (p q : List Ev) (st : TaskId → TStatus)
    (h : run initSt (p ++ q) = some st) :
    ∃ st1, run initSt p = some st1 := by
  rw [run_append] at h
  cases hr : run initSt p with
  | none => rw [hr] at h; cases h
  | some st1 => exact ⟨st1, rfl⟩

/-- C8: in the optical-spectra pipeline, every DDK task is registered with
a dependency on the NSCF task's WFK output; a dependent task is never
started before the tasks it depends on have finished (`S_DONE`); the
band-structure tasks (SCF and NSCF) finish before any DDK task runs; and
the OpticTask is started only after all three DDK tasks (and the NSCF
task) have reached `S_DONE`. -/
theorem claim_C8_optic_scheduling :
    (deps TaskId.ddk1 = [(TaskId.nscf, "WFK")] ∧
     deps TaskId.ddk2 = [(TaskId.nscf, "WFK")] ∧
     deps TaskId.ddk3 = [(TaskId.nscf, "WFK")]) ∧
    (∀ (p q : List Ev) (t : TaskId) (st : TaskId → TStatus),
      run initSt (p ++ Ev.start t :: q) = some st →
      ∀ d ∈ deps t, Ev.finish d.1 ∈ p) ∧
    (∀ (p q : List Ev) (st : TaskId → TStatus) (i : TaskId),
      (i = TaskId.ddk1 ∨ i = TaskId.ddk2 ∨ i = TaskId.ddk3) →
      run initSt (p ++ Ev.start i :: q) = some st →
      Ev.finish TaskId.nscf ∈ p ∧ Ev.finish TaskId.scf ∈ p) ∧
    (∀ (p q : List Ev) (st : TaskId → TStatus),
      run initSt (p ++ Ev.start TaskId.optic :: q) = some st →
      Ev.finish TaskId.ddk1 ∈ p ∧ Ev.finish TaskId.ddk2 ∈ p ∧
      Ev.finish TaskId.ddk3 ∈ p ∧ Ev.finish TaskId.nscf ∈ p) := by
  refine ⟨⟨rfl, rfl, rfl⟩, start_requires_deps_finished,
    fun p q st i hi h => ?_, fun p q st h => ?_⟩
  · have hn : Ev.finish TaskId.nscf ∈ p := by
      rcases hi with hi | hi | hi <;> subst hi <;>
        exact start_requires_deps_finished p q _ st h (TaskId.nscf, "WFK")
          (by simp [deps])
    obtain ⟨st1, hr⟩ := run_prefix p _ st h
    have hinv := run_inv p st1 hr
    have hsn : Ev.start TaskId.nscf ∈ p := hinv.2.2.1 TaskId.nscf hn
    have hscf : Ev.finish TaskId.scf ∈ p :=
      hinv.2.2.2 TaskId.nscf hsn (TaskId.scf, "DEN") (by simp [deps])
    exact ⟨hn, hscf⟩
  · have hd := start_requires_deps_finished p q TaskId.optic st h
    exact ⟨hd (TaskId.ddk1, "1WF") (by simp [deps]),
      hd (TaskId.ddk2, "1WF") (by simp [deps]),
      hd (TaskId.ddk3, "1WF") (by simp [deps]),
      hd (TaskId.nscf, "WFK") (by simp [deps])⟩

/-- The first ten events of the demonstration run: the band-structure
tasks, then the three DDK tasks, each run to completion. -/
def demoPrefix : List Ev :=
  [.start .scf, .finish .scf, .start .nscf, .finish .nscf,
   .start .ddk1, .finish .ddk1, .start .ddk2, .finish .ddk2,
   .start .ddk3, .finish .ddk3]

/-- The final state of the demonstration run. -/
def demoSt : TaskId → TStatus :=
  (run initSt (demoPrefix ++ Ev.start TaskId.optic :: [Ev.finish TaskId.optic])).getD
    initSt

/-- Witness for C8: the canonical sequential run of the optic flow is a
legal trace, and in it the three DDK tasks and the NSCF task all finish
before the OpticTask starts. -/
theorem claim_C8_witness :
    run initSt (demoPrefix ++ Ev.start TaskId.optic :: [Ev.finish TaskId.optic]) =
      some demoSt ∧
    (Ev.finish TaskId.ddk1 ∈ demoPrefix ∧ Ev.finish TaskId.ddk2 ∈ demoPrefix ∧
     Ev.finish TaskId.ddk3 ∈ demoPrefix ∧ Ev.finish TaskId.nscf ∈ demoPrefix) :=
  ⟨rfl, claim_C8_optic_scheduling.2.2.2 demoPrefix [Ev.finish TaskId.optic]
    demoSt rfl⟩

end Abipy
